import Mathlib

/-!
# solids: the script interpreter `parse_file` (src/parser.c)

A shallow embedding of `parse_file` and a verification of the claims made about
it.

* The script is the byte stream read from the opened file: a `List Char`.
  `fgets`, `strlen`, `strchr` and `strcmp` are C library routines; they are
  modelled here on lists of characters (a C string ends at its first NUL
  byte, see `cstr`).
* The conversions `%lf` and `%d` of `sscanf` belong to the C library as well.
  The model takes them as a parameter (`Scanf`), so that what is proved for
  every `Scanf` holds for the conversions of whatever C library the program
  runs with.  `decimal` is one such library, which converts decimal text;
  it serves to run the model on concrete scripts written in decimal
  numerals.
* `matrix.h`, `draw.h`, `display.h`, `ml6.h` and `stack.h` are not part of
  the sources at hand.  Calls into the matrix, generator, rasterizer and image
  code are recorded symbolically: a `Matrix` is the term built by the calls
  that produced it, a `Canvas` is the history of rasterizer calls on the
  screen and depth map, and every output or external call is appended to the
  event log `State.out` in program order.
* A `double` read by `%lf` is kept as the numeral that was converted
  (`Dbl`); no floating-point arithmetic is modelled.
-/

namespace Solids

/-! ## C strings and line reading -/

/-- The NUL byte that ends a C string. -/
def NUL : Char := Char.ofNat 0

/-- The C string held in a buffer: its characters up to the first NUL byte.
This is what `strlen`, `strchr`, `strcmp`, `printf("%s")` and `sscanf` see. -/
def cstr (buf : List Char) : List Char := buf.takeWhile (fun c => c != NUL)

/-- Reading for `fgets`: at most `n` characters, stopping after a newline.
Returns the characters stored and the unread remainder of the stream. -/
def fgetsAux : Nat → List Char → List Char × List Char
  | 0, rest => ([], rest)
  | _ + 1, [] => ([], [])
  | n + 1, c :: cs =>
    if c = '\n' then ([c], cs) else (c :: (fgetsAux n cs).1, (fgetsAux n cs).2)

/-- The call `fgets(buf, size, f)`: `none` (NULL) at end of input, otherwise
the at most `size - 1` characters stored in `buf` and the rest of the stream. -/
def fgets (size : Nat) (f : List Char) : Option (List Char × List Char) :=
  match f with
  | [] => none
  | _ :: _ => some (fgetsAux (size - 1) f)

/-! ## The `sscanf` conversions used by `parse_file` -/

/-- The C library `isspace` in the C locale. -/
def isspace (c : Char) : Bool :=
  c = ' ' || c = '\t' || c = '\n' || c = Char.ofNat 11 || c = Char.ofNat 12 || c = '\r'

/-- The C library `isdigit`. -/
def isdigit (c : Char) : Bool := decide ('0' ≤ c ∧ c ≤ '9')

/-- A `double` obtained by a `%lf` conversion, kept as a numeral that denotes
it (for a decimal numeral of the input, that numeral). -/
structure Dbl where
  numeral : List Char
deriving DecidableEq, Repr

/-- Outcome of one `sscanf` conversion: a value and the unread input, a
matching failure, or an input failure (end of string before any character of
the item). -/
inductive Conv (α : Type) where
  | ok (v : α) (rest : List Char)
  | mismatch
  | eof
deriving DecidableEq, Repr

/-- Positions inside a decimal floating-point numeral
`[+-] digits [. digits] [e [+-] digits]`. -/
inductive NumState where
  | start
  | signed
  | int
  | dot0
  | frac
  | expMark
  | expSign
  | exp
deriving DecidableEq, Repr

/-- One more character of a numeral, if the character can continue it. -/
def NumState.next : NumState → Char → Option NumState
  | .start, c =>
    if c = '+' ∨ c = '-' then some .signed
    else if isdigit c then some .int
    else if c = '.' then some .dot0 else none
  | .signed, c =>
    if isdigit c then some .int else if c = '.' then some .dot0 else none
  | .int, c =>
    if isdigit c then some .int
    else if c = '.' then some .frac
    else if c = 'e' ∨ c = 'E' then some .expMark else none
  | .dot0, c => if isdigit c then some .frac else none
  | .frac, c =>
    if isdigit c then some .frac
    else if c = 'e' ∨ c = 'E' then some .expMark else none
  | .expMark, c =>
    if c = '+' ∨ c = '-' then some .expSign
    else if isdigit c then some .exp else none
  | .expSign, c => if isdigit c then some .exp else none
  | .exp, c => if isdigit c then some .exp else none

/-- The positions at which the characters read so far form a complete numeral. -/
def NumState.accepting : NumState → Bool
  | .int => true
  | .frac => true
  | .exp => true
  | _ => false

/-- The input item of a `%lf` conversion: the longest run of characters that
is a numeral or the beginning of one (ISO C 7.21.6.2).  Returns the item, the
unread input and the position reached. -/
def scanNum : NumState → List Char → List Char × List Char × NumState
  | q, [] => ([], [], q)
  | q, c :: cs =>
    match q.next c with
    | some q1 => (c :: (scanNum q1 cs).1, (scanNum q1 cs).2.1, (scanNum q1 cs).2.2)
    | none => ([], c :: cs, q)

/-- The conversion `%lf` of the library `decimal`: leading white space is
skipped, the input item is read, and the conversion succeeds when the item is
a complete decimal numeral.  A C library converts further spellings
(hexadecimal numerals, infinity, NaN, and with some libraries a numeral with
a dangling exponent), on which `decimal` differs from it.  Nothing that is
proved for all scripts rests on this definition: those theorems hold for every
`Scanf`.  It is used to run the model on scripts whose parameter lines hold
decimal numerals, blanks and words only, on which every C library converts
alike. -/
def decimal_lf (s : List Char) : Conv Dbl :=
  match s.dropWhile isspace with
  | [] => .eof
  | c :: cs =>
    if (scanNum .start (c :: cs)).2.2.accepting
    then .ok ⟨(scanNum .start (c :: cs)).1⟩ (scanNum .start (c :: cs)).2.1
    else .mismatch

/-- Value of a run of decimal digits. -/
def digitsVal (ds : List Char) : Nat :=
  ds.foldl (fun acc c => 10 * acc + (c.toNat - '0'.toNat)) 0

/-- The value of an `int` into which a `long` is stored: the value modulo
2^32, taken between -2^31 and 2^31 - 1. -/
def toInt32 (v : Int) : Int := (v + 2147483648) % 4294967296 - 2147483648

/-- The value of a `long` (64 bits) that `strtol` returns for an integer: the
integer itself, or the nearest bound when it does not fit. -/
def toLong (v : Int) : Int := max (-9223372036854775808) (min v 9223372036854775807)

/-- The conversion `%d` of the library `decimal`: leading white space is
skipped, then an optional sign and a non-empty run of digits are read.  The
value stored into the `int` is that of the numeral when it fits; otherwise
(where ISO C leaves the result undefined) it is what a library with a 64-bit
`long` stores: the `long` of `strtol`, cut to 32 bits. -/
def decimal_d (s : List Char) : Conv Int :=
  match s.dropWhile isspace with
  | [] => .eof
  | c :: cs =>
    let body := if c = '-' ∨ c = '+' then cs else c :: cs
    let ds := body.takeWhile isdigit
    if ds = [] then .mismatch
    else .ok (toInt32 (toLong (if c = '-' then - (digitsVal ds : Int) else (digitsVal ds : Int))))
      (body.dropWhile isdigit)

/-- The conversions of `sscanf` that belong to the C library: `lf` is the
conversion `%lf` and `d` the conversion `%d`, each applied to the unread rest
of the string; `d` stores into an `int`. -/
structure Scanf where
  lf : List Char → Conv Dbl
  d : List Char → Conv Int
  d_int : ∀ s v rest, d s = Conv.ok v rest → -2147483648 ≤ v ∧ v ≤ 2147483647

/-- A library that converts decimal text: the instance of `Scanf` at which
the model is run on concrete scripts. -/
def decimal : Scanf where
  lf := decimal_lf
  d := decimal_d
  d_int := by
    intro s v rest h
    unfold decimal_d at h
    split at h
    · cases h
    · simp only at h
      split_ifs at h
      all_goals
        injection h with hv _
        subst hv
        unfold toInt32
        omega

/-- The loop of `sscanf(s, "%lf %lf ... %lf", ...)` with `k` conversions left
and `acc` already stored: returns the value `sscanf` returns (the number of
values stored, or EOF = -1 when the input ends before the first one) and the
values stored into `args`. -/
def scan_lfs (L : Scanf) : Nat → List Char → List Dbl → Int × List Dbl
  | 0, _, acc => (acc.length, acc)
  | k + 1, s, acc =>
    match L.lf s with
    | .ok v rest => scan_lfs L k rest (acc ++ [v])
    | .mismatch => (acc.length, acc)
    | .eof => (if acc.length = 0 then -1 else acc.length, acc)

/-- The call `sscanf(s, "%lf ... %lf", args, ..., args+n-1)` with `n`
conversions. -/
def sscanf_lf (L : Scanf) (n : Nat) (s : List Char) : Int × List Dbl := scan_lfs L n s []

/-- The loop of `sscanf(s, "%d %d %d", ...)`, as `scan_lfs`. -/
def scan_ds (L : Scanf) : Nat → List Char → List Int → Int × List Int
  | 0, _, acc => (acc.length, acc)
  | k + 1, s, acc =>
    match L.d s with
    | .ok v rest => scan_ds L k rest (acc ++ [v])
    | .mismatch => (acc.length, acc)
    | .eof => (if acc.length = 0 then -1 else acc.length, acc)

/-- The call `sscanf(s, "%d %d %d", rgb, rgb+1, rgb+2)`. -/
def sscanf_d3 (L : Scanf) (s : List Char) : Int × List Int := scan_ds L 3 s []

/-- The call `sscanf(s, "%c %lf", axis, theta)`: `%c` takes the first
character without skipping white space; returns the `sscanf` result, the
axis character and the angle when stored. -/
def sscanf_c_lf (L : Scanf) (s : List Char) : Int × Option Char × Option Dbl :=
  match s with
  | [] => (-1, none, none)
  | c :: cs =>
    match L.lf cs with
    | .ok v _ => (2, some c, some v)
    | _ => (1, some c, none)

/-- Contents of a file-name buffer handed to the image encoder: the token
written into it, or indeterminate bytes (nothing was stored into the
`malloc`ed buffer, or more was stored than it holds). -/
inductive Filename where
  | token (t : List Char)
  | indeterminate
deriving DecidableEq, Repr

/-- A string stored into a buffer of `size` bytes. -/
def Filename.store (size : Nat) (t : List Char) : Filename :=
  if t.length < size then .token t else .indeterminate

/-- The call `sscanf(s, "%s", filename)` into the 32-byte buffer of the
`save` branch: white space is skipped and the following run of non-space
characters is stored; EOF = -1 when there is none. -/
def sscanf_s (s : List Char) : Int × Filename :=
  match s.dropWhile isspace with
  | [] => (-1, .indeterminate)
  | c :: cs => (1, Filename.store 32 ((c :: cs).takeWhile (fun x => !isspace x)))

/-- The conversion `%d` of `printf`. -/
def fmt_d (k : Int) : List Char := (toString k).toList

/-! ## External collaborators, recorded symbolically -/

/-- The macro `STEP_SIZE` of draw.h, whose value is not part of the sources at
hand, and the expression `STEP_SIZE * 5` built from it. -/
inductive Step where
  | STEP_SIZE
  | STEP_SIZE_x5
deriving DecidableEq, Repr

/-- The curve kinds `BEZIER` and `HERMITE` passed to `add_curve`. -/
inductive CurveType where
  | BEZIER
  | HERMITE
deriving DecidableEq, Repr

/-- The geometry generators of draw.h, with their non-numeric arguments. -/
inductive Generator where
  | add_edge
  | add_polygon
  | add_box
  | add_sphere (step : Step)
  | add_torus (step : Step)
  | add_circle (step : Step)
  | add_curve (step : Step) (type : CurveType)
deriving DecidableEq, Repr

/-- A matrix, as the term of the calls that built it: `add g m args` is the
buffer `m` after the generator call `g(m, args[0], ..., args[k-1], ...)`. -/
inductive Matrix where
  | new_matrix (rows cols : Nat)
  | ident
  | add (g : Generator) (m : Matrix) (args : List Dbl)
  | make_scale (args : List Dbl)
  | make_translate (args : List Dbl)
  | make_rotX (theta : Dbl)
  | make_rotY (theta : Dbl)
  | make_rotZ (theta : Dbl)
  | matrix_mult (a b : Matrix)
deriving DecidableEq, Repr

/-- Modelled from the spec: the `color` type of ml6.h and `get_color`, which are
not part of the sources at hand; a colour is the triple of channel values,
stored as given. -/
structure Color where
  red : Int
  green : Int
  blue : Int
deriving DecidableEq, Repr

/-- Modelled from the spec: `get_color(r, g, b)` stores the three channel
values as given. -/
def get_color (r g b : Int) : Color := ⟨r, g, b⟩

/-- The two rasterizers of draw.h. -/
inductive Raster where
  | draw_lines
  | draw_polygons
deriving DecidableEq, Repr

/-- The screen `s` together with the depth map `d`, as the history of the
calls that wrote them: `cleared back` after `clear_screen(s, back);
clear_depthmap(d)`, and `draw r m c prev` after the rasterizer call
`r(m, s, c, d)` on the state `prev`. -/
inductive Canvas where
  | cleared (back : Color)
  | draw (r : Raster) (m : Matrix) (c : Color) (prev : Canvas)
deriving DecidableEq, Repr

/-- What the run emits, in program order: text printed to standard output or
standard error, the calls of the rasterizer and of the image encoder, and the
diagnostic of a rejected `pop`. -/
inductive Event where
  | stdout (text : List Char)
  | stdout_saving_as (name : Filename)
  | stderr (text : List Char)
  | draw (r : Raster) (m : Matrix) (c : Color)
  | save_extension (sd : Canvas) (name : Filename)
  | pop_diagnostic
deriving DecidableEq, Repr

/-! ## The transform stack (stack.h) -/

/-- Modelled from the spec: `new_stack` of stack.h, which is not part of the
sources at hand; the stack starts with the identity as its only element. -/
def new_stack : List Matrix := [Matrix.ident]

/-- Modelled from the spec: `peek` of stack.h returns the top of the stack. -/
def peek (stack : List Matrix) : Matrix :=
  match stack with
  | [] => Matrix.ident
  | top :: _ => top

/-- Modelled from the spec: `push` of stack.h duplicates the current top and
makes the copy the new top. -/
def push (stack : List Matrix) : List Matrix :=
  match stack with
  | [] => []
  | top :: below => top :: top :: below

/-- Modelled from the spec: `pop` of stack.h removes the current top; at
height 1 it is rejected as a no-op with a diagnostic.  Returns the stack and
the events emitted. -/
def pop (stack : List Matrix) : List Matrix × List Event :=
  match stack with
  | _ :: next :: below => (next :: below, [])
  | _ => (stack, [Event.pop_diagnostic])

/-- Modelled from the spec: `apply_to_stack(stack, T)` of stack.h replaces the
top by `Top ∘ T`. -/
def apply_to_stack (stack : List Matrix) (t : Matrix) : List Matrix :=
  match stack with
  | [] => []
  | top :: below => Matrix.matrix_mult top t :: below

/-! ## `parse_file` -/

/-- The local variables of `parse_file` that live across loop iterations,
the unread input `f`, and the event log.  (`edges` and `polygons` are
reassigned at the head of every branch that uses them, so they are local to
the branch here.) -/
structure State where
  f : List Char
  nargs : Int
  ndisplay : Nat
  stack : List Matrix
  sd : Canvas
  c : Color
  back : Color
  out : List Event
deriving DecidableEq, Repr

/-- Append one `printf` output to the log. -/
def State.printf (st : State) (text : List Char) : State :=
  { st with out := st.out ++ [Event.stdout text] }

/-- The test `!fgets(argline, 255, f) || ((nargs = sscanf(argline, "%lf ...",
args, ...)) != n)` with its diagnostic `printf(msg "%d\n", nargs)`: returns
the state and the `n` values of `args` when the test is false. -/
def read_lf (L : Scanf) (n : Nat) (msg : String) (st : State) : State × Option (List Dbl) :=
  match fgets 255 st.f with
  | none => (st.printf (msg.toList ++ fmt_d st.nargs ++ ['\n']), none)
  | some (argline, rest) =>
    if (sscanf_lf L n (cstr argline)).1 ≠ (n : Int)
    then (({ st with f := rest, nargs := (sscanf_lf L n (cstr argline)).1 } : State).printf
            (msg.toList ++ fmt_d (sscanf_lf L n (cstr argline)).1 ++ ['\n']), none)
    else ({ st with f := rest, nargs := (sscanf_lf L n (cstr argline)).1 },
            some (sscanf_lf L n (cstr argline)).2)

/-- The rasterizer call `r(m, s, c, d)`. -/
def State.rasterize (st : State) (r : Raster) (m : Matrix) : State :=
  { st with sd := Canvas.draw r m st.c st.sd, out := st.out ++ [Event.draw r m st.c] }

/-- The common shape of the eight drawing branches: allocate the buffer `buf`,
read the arguments, call the generator `g` when they were read, then call the
rasterizer `r` on `matrix_mult(peek(stack), buf)` in either case. -/
def draw_cmd (L : Scanf) (n : Nat) (msg : String) (buf : Matrix) (g : Generator) (r : Raster)
    (st : State) : State :=
  match read_lf L n msg st with
  | (st1, none) => st1.rasterize r (Matrix.matrix_mult (peek st1.stack) buf)
  | (st1, some args) =>
    st1.rasterize r (Matrix.matrix_mult (peek st1.stack) (Matrix.add g buf args))

/-- The branches `scale` and `translate`/`move`: read three values and apply
the matrix `make args` to the stack when they were read. -/
def transform_cmd (L : Scanf) (msg : String) (make : List Dbl → Matrix) (st : State) : State :=
  match read_lf L 3 msg st with
  | (st1, none) => st1
  | (st1, some args) => { st1 with stack := apply_to_stack st1.stack (make args) }

/-- The branch `rotate`. -/
def rotate_cmd (L : Scanf) (st : State) : State :=
  match fgets 255 st.f with
  | none => st.printf "Error: 'rotate' requires both an axis and an angle\n".toList
  | some (argline, rest) =>
    match sscanf_c_lf L (cstr argline) with
    | (2, some axis, some theta) =>
      if axis = 'x' ∨ axis = 'X' then
        { st with f := rest, stack := apply_to_stack st.stack (Matrix.make_rotX theta) }
      else if axis = 'y' ∨ axis = 'Y' then
        { st with f := rest, stack := apply_to_stack st.stack (Matrix.make_rotY theta) }
      else if axis = 'z' ∨ axis = 'Z' then
        { st with f := rest, stack := apply_to_stack st.stack (Matrix.make_rotZ theta) }
      else
        ({ st with f := rest } : State).printf
          ("Error: ".toList ++ [axis] ++ " is not a valid axis\n".toList)
    | _ =>
      ({ st with f := rest } : State).printf
        "Error: 'rotate' requires both an axis and an angle\n".toList

/-- The test `!fgets(argline, 255, f) || (sscanf(argline, "%d %d %d", rgb,
rgb+1, rgb+2) != 3)` of the branches `color` and `background`, with the
diagnostic `msg`: returns the state and the colour when the test is false. -/
def read_rgb (L : Scanf) (msg : String) (st : State) : State × Option Color :=
  match fgets 255 st.f with
  | none => (st.printf msg.toList, none)
  | some (argline, rest) =>
    match sscanf_d3 L (cstr argline) with
    | (3, [r, g, b]) => ({ st with f := rest }, some (get_color r g b))
    | _ => (({ st with f := rest } : State).printf msg.toList, none)

/-- The branch `display`: the name is written by `sprintf` into a 16-byte
buffer and the counter is incremented. -/
def display_cmd (st : State) : State :=
  { st with
    ndisplay := st.ndisplay + 1,
    out := st.out ++ [Event.save_extension st.sd
      (Filename.store 16 ("display-".toList ++ fmt_d st.ndisplay ++ ".png".toList))] }

/-- The branch `save`. -/
def save_cmd (st : State) : State :=
  match fgets 255 st.f with
  | none => st.printf "Error: 'save' requires a filename, none given\n".toList
  | some (argline, rest) =>
    if (sscanf_s (cstr argline)).1 = 0 then
      ({ st with f := rest } : State).printf
        "Error: 'save' requires a filename, none given\n".toList
    else
      { st with
        f := rest,
        out := st.out ++ [Event.stdout_saving_as (sscanf_s (cstr argline)).2,
          Event.save_extension st.sd (sscanf_s (cstr argline)).2] }

/-- The chain of `strcmp` tests on the echoed command line.  The result is the
state after the branch and whether the loop goes on (`false` for `break` and
`exit`). -/
def dispatch (L : Scanf) (line : List Char) (st : State) : State × Bool :=
  if line = "quit".toList then (st, false)
  else if line = "line".toList then
    (draw_cmd L 6 "Error: 'line' requires 6 arguments of type double, found "
      (Matrix.new_matrix 4 1) Generator.add_edge Raster.draw_lines st, true)
  else if line = "polygon".toList then
    (draw_cmd L 9 "Error: 'polygon' requires 9 arguments of type double, found "
      (Matrix.new_matrix 4 3) Generator.add_polygon Raster.draw_polygons st, true)
  else if line = "box".toList then
    (draw_cmd L 6 "Error: 'box' requires 6 arguments of type double, found "
      (Matrix.new_matrix 4 36) Generator.add_box Raster.draw_polygons st, true)
  else if line = "sphere".toList then
    (draw_cmd L 4 "Error: 'sphere' requires 4 arguments of type double, found "
      (Matrix.new_matrix 4 128) (Generator.add_sphere Step.STEP_SIZE_x5)
      Raster.draw_polygons st, true)
  else if line = "torus".toList then
    (draw_cmd L 5 "Error: 'torus' requires 5 arguments of type double, found "
      (Matrix.new_matrix 4 128) (Generator.add_torus Step.STEP_SIZE_x5)
      Raster.draw_polygons st, true)
  else if line = "circle".toList then
    (draw_cmd L 4 "Error: 'circle' requires 4 arguments of type double, found "
      (Matrix.new_matrix 4 64) (Generator.add_circle Step.STEP_SIZE)
      Raster.draw_lines st, true)
  else if line = "bezier".toList then
    (draw_cmd L 8 "Error: 'bezier' requires 8 arguments of type double, found "
      (Matrix.new_matrix 4 64) (Generator.add_curve Step.STEP_SIZE CurveType.BEZIER)
      Raster.draw_lines st, true)
  else if line = "hermite".toList then
    (draw_cmd L 8 "Error: 'hermite' requires 8 arguments of type double, found "
      (Matrix.new_matrix 4 64) (Generator.add_curve Step.STEP_SIZE CurveType.HERMITE)
      Raster.draw_lines st, true)
  else if line = "push".toList then ({ st with stack := push st.stack }, true)
  else if line = "pop".toList then
    ({ st with stack := (pop st.stack).1, out := st.out ++ (pop st.stack).2 }, true)
  else if line = "scale".toList then
    (transform_cmd L "Error: 'scale' requires 3 arguments of type double, found "
      Matrix.make_scale st, true)
  else if line = "translate".toList ∨ line = "move".toList then
    (transform_cmd L "Error: 'translate' requires 3 arguments of type double, found "
      Matrix.make_translate st, true)
  else if line = "rotate".toList then (rotate_cmd L st, true)
  else if line = "color".toList then
    (match read_rgb L "Error: 'color' requires three integeres\n" st with
      | (st1, none) => st1
      | (st1, some rgb) => { st1 with c := rgb }, true)
  else if line = "background".toList then
    (match read_rgb L "Error: 'background' requires three integeres\n" st with
      | (st1, none) => st1
      | (st1, some rgb) => { st1 with back := rgb }, true)
  else if line = "display".toList then (display_cmd st, true)
  else if line = "save".toList then (save_cmd st, true)
  else if line = "quit".toList then (st.printf "Parse terminated\n".toList, false)
  else
    (st.printf ("Error: unrecognized command '".toList ++ line ++ "'\n".toList), true)

/-- The test that skips a line: it is empty, or starts with `#`, or with `//`. -/
def skipped (line : List Char) : Bool :=
  match line with
  | [] => true
  | c0 :: tl => c0 = '#' || (c0 = '/' && tl.head? = some '/')

/-- The text of `line` after `line[strlen(line)-1] = 0`: the C string less its
last character, whatever that character is.  (On an empty C string the write
falls outside the text, which stays empty.) -/
def strip (raw : List Char) : List Char := (cstr raw).dropLast

/-- The message written to standard error for a carriage return. -/
def crMessage : List Char :=
  "Please use a script file with Unix-style (\\n) line endings\n".toList

/-- One pass through the `while` loop: the loop test `fgets(line, 255, f)`,
the carriage-return check, the removal of the last character, the filter for
blank and comment lines, the echo and the dispatch.  The flag tells whether
the loop goes on. -/
def iteration (L : Scanf) (st : State) : State × Bool :=
  match fgets 255 st.f with
  | none => (st, false)
  | some (raw, rest) =>
    if '\r' ∈ cstr raw then
      ({ st with f := rest, out := st.out ++ [Event.stderr crMessage] }, false)
    else if skipped (strip raw) then ({ st with f := rest }, true)
    else
      dispatch L (strip raw)
        (({ st with f := rest } : State).printf (':' :: strip raw ++ ['\n']))

/-- The `while` loop, unrolled at most `fuel` times. -/
def run (L : Scanf) : Nat → State → State
  | 0, st => st
  | fuel + 1, st =>
    if (iteration L st).2 then run L fuel (iteration L st).1 else (iteration L st).1

/-- The state on entry to the loop, reading the stream `script`. -/
def init (script : List Char) : State :=
  { f := script
    nargs := 0
    ndisplay := 0
    stack := new_stack
    sd := Canvas.cleared (get_color 0 0 0)
    c := get_color 255 255 255
    back := get_color 0 0 0
    out := [] }

/-- The run of `parse_file` on the stream `script`: every pass that goes on
consumes at least one character, so `script.length + 1` passes reach the end
of the loop (see `run_fuel`). -/
def parse_file (L : Scanf) (script : List Char) : State := run L (script.length + 1) (init script)

/-! ## Vocabulary of the statements -/

/-- The loop's read at `st` yields the command line `line` and leaves `rest`
unread: `fgets` stores a text without carriage return whose C string, less its
last character, is `line`, and `line` is neither blank nor a comment. -/
def CommandLine (st : State) (line rest : List Char) : Prop :=
  ∃ raw, fgets 255 st.f = some (raw, rest) ∧ '\r' ∉ cstr raw ∧ strip raw = line ∧
    skipped line = false

/-- The state in which the branch of a command line starts: the line has been
read and echoed. -/
def echoed (st : State) (line rest : List Char) : State :=
  ({ st with f := rest } : State).printf (':' :: line ++ ['\n'])

/-- The text `Error: '<name>' requires <n> arguments of type double, found
<found>` followed by a newline. -/
def argsMessage (name : String) (n : Nat) (found : Int) : List Char :=
  ("Error: '" ++ name ++ "' requires " ++ toString n ++
    " arguments of type double, found ").toList ++ fmt_d found ++ ['\n']

/-- A drawing branch of `dispatch`: its keyword, the number of values it
reads, the number of columns of the buffer it allocates, its generator and its
rasterizer. -/
structure DrawCommand where
  keyword : String
  n : Nat
  cols : Nat
  g : Generator
  r : Raster

/-- The eight drawing branches, in the order of the source. -/
def drawCommands : List DrawCommand :=
  [ ⟨"line", 6, 1, Generator.add_edge, Raster.draw_lines⟩,
    ⟨"polygon", 9, 3, Generator.add_polygon, Raster.draw_polygons⟩,
    ⟨"box", 6, 36, Generator.add_box, Raster.draw_polygons⟩,
    ⟨"sphere", 4, 128, Generator.add_sphere Step.STEP_SIZE_x5, Raster.draw_polygons⟩,
    ⟨"torus", 5, 128, Generator.add_torus Step.STEP_SIZE_x5, Raster.draw_polygons⟩,
    ⟨"circle", 4, 64, Generator.add_circle Step.STEP_SIZE, Raster.draw_lines⟩,
    ⟨"bezier", 8, 64, Generator.add_curve Step.STEP_SIZE CurveType.BEZIER, Raster.draw_lines⟩,
    ⟨"hermite", 8, 64, Generator.add_curve Step.STEP_SIZE CurveType.HERMITE,
      Raster.draw_lines⟩ ]

/-- The matrix handed to the rasterizer by a drawing branch on the stack
`stack`: the top of the stack times the fresh buffer, to which the generator
has been applied when `args` were read. -/
def DrawCommand.batch (d : DrawCommand) (stack : List Matrix) (args : Option (List Dbl)) :
    Matrix :=
  match args with
  | none => Matrix.matrix_mult (peek stack) (Matrix.new_matrix 4 d.cols)
  | some a => Matrix.matrix_mult (peek stack) (Matrix.add d.g (Matrix.new_matrix 4 d.cols) a)

/-- A branch of `dispatch` that reads `n` values of type double: its keyword,
the name its diagnostic prints, and what it does after the values were read
(`onSuccess`) or were not (`onFailure`). -/
structure NumericCommand where
  keyword : String
  name : String
  n : Nat
  onFailure : State → State
  onSuccess : List Dbl → State → State

/-- A drawing branch as a numeric branch: it rasterizes in both cases. -/
def DrawCommand.toNumeric (d : DrawCommand) : NumericCommand :=
  { keyword := d.keyword
    name := d.keyword
    n := d.n
    onFailure := fun st => st.rasterize d.r (d.batch st.stack none)
    onSuccess := fun args st => st.rasterize d.r (d.batch st.stack (some args)) }

/-- The branches `scale` and `translate`/`move` as numeric branches: the stack
is changed only when the values were read. -/
def transformCommands : List NumericCommand :=
  [ ⟨"scale", "scale", 3, fun st => st,
      fun args st => { st with stack := apply_to_stack st.stack (Matrix.make_scale args) }⟩,
    ⟨"translate", "translate", 3, fun st => st,
      fun args st => { st with stack := apply_to_stack st.stack (Matrix.make_translate args) }⟩,
    ⟨"move", "translate", 3, fun st => st,
      fun args st => { st with stack := apply_to_stack st.stack (Matrix.make_translate args) }⟩ ]

/-- The branches that read values of type double: the drawing branches, `scale`,
`translate` and `move`. -/
def numericCommands : List NumericCommand :=
  drawCommands.map DrawCommand.toNumeric ++ transformCommands

/-- The keywords whose branch reads a parameter line. -/
def paramKeywords : List String :=
  ["line", "polygon", "box", "sphere", "torus", "circle", "bezier", "hermite", "scale",
    "translate", "move", "rotate", "color", "background", "save"]

/-- The keywords tested by `dispatch`. -/
def keywords : List String :=
  ["quit", "line", "polygon", "box", "sphere", "torus", "circle", "bezier", "hermite", "push",
    "pop", "scale", "translate", "move", "rotate", "color", "background", "display", "save"]

/-- An echo: a line of standard output that starts with a colon. -/
def Event.isEcho : Event → Bool
  | .stdout (c :: _) => c = ':'
  | _ => false

/-- A call of one of the two rasterizers. -/
def Event.isRaster : Event → Bool
  | .draw _ _ _ => true
  | _ => false

/-- The parameter line of a branch that reads `n` values, to be read from
`rest`, is missing or does not yield `n` values. -/
def paramFails (L : Scanf) (n : Nat) (rest : List Char) : Bool :=
  match fgets 255 rest with
  | none => true
  | some (argline, _) => (sscanf_lf L n (cstr argline)).1 != (n : Int)

/-- The count printed by the diagnostic of a failing branch: the value of
`nargs`, assigned from `sscanf` only when a parameter line was read. -/
def reported (L : Scanf) (n : Nat) (nargs : Int) (rest : List Char) : Int :=
  match fgets 255 rest with
  | none => nargs
  | some (argline, _) => (sscanf_lf L n (cstr argline)).1

/-- The state after `k` passes of the loop from `st`, when the loop goes on
after each of them. -/
def passes (L : Scanf) : Nat → State → Option State
  | 0, st => some st
  | k + 1, st => if (iteration L st).2 then passes L k (iteration L st).1 else none

/-- The script text `pre` ends at a command position: whatever text `x`
follows it, the loop run on `pre ++ x` comes, after some passes, to stand at
its head with exactly `x` unread, in a state that does not depend on `x`. -/
def AtCommandPosition (L : Scanf) (pre : List Char) : Prop :=
  ∃ (k : Nat) (s : State), ∀ x : List Char, passes L k (init (pre ++ x)) = some { s with f := x }

/-- The script of `n` lines `display`. -/
def displayScript : Nat → List Char
  | 0 => []
  | n + 1 => "display\n".toList ++ displayScript n

/-- The step argument passed to a generator, for those that take one. -/
def Generator.step : Generator → Option Step
  | .add_edge => none
  | .add_polygon => none
  | .add_box => none
  | .add_sphere s => some s
  | .add_torus s => some s
  | .add_circle s => some s
  | .add_curve s _ => some s

/-- The input `f` begins with the line `body`, behind which `more` is left:
`body` holds at most 253 characters and no newline, and it is ended by a
newline or, being non-empty, by the end of the input. -/
def BeginsWithLine (f body more : List Char) : Prop :=
  body.length ≤ 253 ∧ '\n' ∉ body ∧
    (f = body ++ '\n' :: more ∨ (body ≠ [] ∧ more = [] ∧ f = body))

variable {L : Scanf}

/-! ## Reading lines -/

theorem fgetsAux_append (n : Nat) (f : List Char) :
    (fgetsAux n f).1 ++ (fgetsAux n f).2 = f := by
  induction n generalizing f with
  | zero => simp [fgetsAux]
  | succ n ih =>
    cases f with
    | nil => simp [fgetsAux]
    | cons c cs =>
      by_cases hc : c = '\n'
      · simp [fgetsAux, hc]
      · simp [fgetsAux, hc, ih cs]

theorem fgetsAux_length (n : Nat) (c : Char) (cs : List Char) :
    (fgetsAux (n + 1) (c :: cs)).2.length < (c :: cs).length := by
  have h := congrArg List.length (fgetsAux_append n cs)
  by_cases hc : c = '\n'
  · simp [fgetsAux, hc]
  · simp only [fgetsAux, hc, if_false, List.length_cons]
    simp only [List.length_append] at h
    omega

theorem fgets_length {f raw rest : List Char} (h : fgets 255 f = some (raw, rest)) :
    rest.length < f.length := by
  cases f with
  | nil => simp [fgets] at h
  | cons c cs =>
    simp only [fgets, Option.some.injEq] at h
    have h2 := fgetsAux_length 253 c cs
    rw [show (255 - 1) = 253 + 1 from rfl] at h
    rw [h] at h2
    exact h2

theorem fgets_line (body post : List Char) (hlen : body.length ≤ 253)
    (hnl : '\n' ∉ body) :
    fgets 255 (body ++ '\n' :: post) = some (body ++ ['\n'], post) := by
  have key : ∀ (n : Nat) (b : List Char), b.length < n → '\n' ∉ b →
      fgetsAux n (b ++ '\n' :: post) = (b ++ ['\n'], post) := by
    intro n
    induction n with
    | zero => intro b hb; omega
    | succ n ih =>
      intro b hb hn
      cases b with
      | nil => simp [fgetsAux]
      | cons c cs =>
        have hc : c ≠ '\n' := fun h => hn (by simp [h])
        have hcs : '\n' ∉ cs := fun h => hn (by simp [h])
        have hl : cs.length < n := by simpa using hb
        simp [fgetsAux, hc, ih cs hl hcs]
  cases hb : body with
  | nil => simp [fgets, fgetsAux]
  | cons c cs =>
    subst hb
    have := key 254 (c :: cs) (by omega) hnl
    simpa [fgets] using this

theorem fgetsAux_short (n : Nat) (b : List Char) (hlen : b.length ≤ n) (hnl : '\n' ∉ b) :
    fgetsAux n b = (b, []) := by
  induction n generalizing b with
  | zero =>
    have hb : b = [] := List.length_eq_zero.mp (by omega)
    subst hb
    rfl
  | succ n ih =>
    cases b with
    | nil => rfl
    | cons c cs =>
      have hc : c ≠ '\n' := fun h => hnl (by simp [h])
      have hcs : '\n' ∉ cs := fun h => hnl (by simp [h])
      have hl : cs.length ≤ n := by simpa using hlen
      simp [fgetsAux, hc, ih cs hl hcs]

/-- The read of a last line that no newline ends. -/
theorem fgets_last_line (body : List Char) (hne : body ≠ []) (hlen : body.length ≤ 253)
    (hnl : '\n' ∉ body) : fgets 255 body = some (body, []) := by
  cases hb : body with
  | nil => exact absurd hb hne
  | cons c cs =>
    subst hb
    have := fgetsAux_short 254 (c :: cs) (by omega) hnl
    simpa [fgets] using this

/-- One `fgets` reads a line of the input whole. -/
theorem fgets_beginsWithLine {f body more : List Char} (h : BeginsWithLine f body more) :
    ∃ raw, fgets 255 f = some (raw, more) ∧ (raw = body ++ ['\n'] ∨ raw = body) := by
  obtain ⟨hlen, hnl, hf | ⟨hne, hm, hf⟩⟩ := h
  · subst hf
    exact ⟨body ++ ['\n'], fgets_line body more hlen hnl, Or.inl rfl⟩
  · subst hf hm
    exact ⟨_, fgets_last_line _ hne hlen hnl, Or.inr rfl⟩

theorem cstr_append_mem (c : Char) (a b : List Char) (h : c ∈ cstr a) : c ∈ cstr (a ++ b) := by
  induction a with
  | nil => simp [cstr] at h
  | cons x xs ih =>
    unfold cstr at h ih ⊢
    by_cases hx : x = NUL
    · simp [List.takeWhile_cons, hx] at h
    · simp only [List.cons_append, List.takeWhile_cons, bne_iff_ne, ne_eq, hx, not_false_eq_true,
        decide_True, if_true, List.mem_cons] at h ⊢
      rcases h with h | h
      · exact Or.inl h
      · exact Or.inr (ih h)

/-! ## One pass of the loop -/

theorem iteration_of_commandLine {st : State} {line rest : List Char}
    (h : CommandLine st line rest) :
    iteration L st = dispatch L line (echoed st line rest) := by
  obtain ⟨raw, hf, hcr, hs, hk⟩ := h
  simp [iteration, hf, hcr, hs, hk, echoed]

theorem read_lf_eq (n : Nat) (msg : String) (st : State) :
    read_lf L n msg st =
      match fgets 255 st.f with
      | none => (st.printf (msg.toList ++ fmt_d st.nargs ++ ['\n']), none)
      | some (argline, rest) =>
        if (sscanf_lf L n (cstr argline)).1 ≠ (n : Int)
        then (({ st with f := rest, nargs := (sscanf_lf L n (cstr argline)).1 } : State).printf
            (msg.toList ++ fmt_d (sscanf_lf L n (cstr argline)).1 ++ ['\n']), none)
        else ({ st with f := rest, nargs := (sscanf_lf L n (cstr argline)).1 },
            some (sscanf_lf L n (cstr argline)).2) := rfl

theorem dispatch_numeric (c : NumericCommand) (hc : c ∈ numericCommands) (st : State) :
    dispatch L c.keyword.toList st =
      (match read_lf L c.n ("Error: '" ++ c.name ++ "' requires " ++ toString c.n ++
          " arguments of type double, found ") st with
        | (st1, none) => c.onFailure st1
        | (st1, some args) => c.onSuccess args st1, true) := by
  simp only [numericCommands, drawCommands, transformCommands, List.map, List.cons_append,
    List.nil_append, List.mem_cons, List.mem_singleton, List.not_mem_nil, or_false] at hc
  rcases hc with h | h | h | h | h | h | h | h | h | h | h <;> subst h <;> rfl

theorem toNumeric_mem {d : DrawCommand} (hd : d ∈ drawCommands) :
    d.toNumeric ∈ numericCommands :=
  List.mem_append_left _ (List.mem_map_of_mem _ hd)

/-- A numeric branch whose parameter line is missing or does not yield `n`
values: the diagnostic with the value of `nargs`, then `onFailure`. -/
theorem numeric_failure (c : NumericCommand) (hc : c ∈ numericCommands) (st : State)
    (rest : List Char) (hcmd : CommandLine st c.keyword.toList rest)
    (hfail : paramFails L c.n rest = true) :
    iteration L st =
      (c.onFailure
        { st with
          f := match fgets 255 rest with
            | none => rest
            | some (_, rest1) => rest1
          nargs := reported L c.n st.nargs rest
          out := st.out ++ [Event.stdout (':' :: c.keyword.toList ++ ['\n']),
            Event.stdout (argsMessage c.name c.n (reported L c.n st.nargs rest))] }, true) := by
  rw [iteration_of_commandLine hcmd, dispatch_numeric c hc, read_lf_eq]
  unfold paramFails at hfail
  unfold reported
  cases hf : fgets 255 rest with
  | none => simp [echoed, State.printf, hf, argsMessage]
  | some p =>
    obtain ⟨argline, rest1⟩ := p
    rw [hf] at hfail
    have hne : (sscanf_lf L c.n (cstr argline)).1 ≠ (c.n : Int) := by simpa using hfail
    simp [echoed, State.printf, hf, argsMessage, hne]

/-- A numeric branch whose parameter line yields `n` values: no diagnostic,
then `onSuccess` on the values. -/
theorem numeric_success (c : NumericCommand) (hc : c ∈ numericCommands) (st : State)
    (rest argline rest1 : List Char) (hcmd : CommandLine st c.keyword.toList rest)
    (harg : fgets 255 rest = some (argline, rest1))
    (hok : (sscanf_lf L c.n (cstr argline)).1 = (c.n : Int)) :
    iteration L st =
      (c.onSuccess (sscanf_lf L c.n (cstr argline)).2
        { st with
          f := rest1
          nargs := c.n
          out := st.out ++ [Event.stdout (':' :: c.keyword.toList ++ ['\n'])] }, true) := by
  rw [iteration_of_commandLine hcmd, dispatch_numeric c hc, read_lf_eq]
  simp [echoed, State.printf, harg, hok]

/-! ## C1: a drawing command whose parameters cannot be read -/

/-- C1 (as amended): for each of the eight drawing commands and every run
state, if the parameter line is missing or does not yield the required number
of values, the generator is not called, and the rasterizer of the command is
called exactly once, on the product of the top of the stack with the freshly
allocated buffer, after the diagnostic; the loop goes on.  The number of
values is the one that `sscanf` returns, with the conversions of whatever C
library the program runs with. -/
theorem draw_failure_rasterizes_fresh_buffer (d : DrawCommand) (hd : d ∈ drawCommands)
    (st : State) (rest : List Char) (hcmd : CommandLine st d.keyword.toList rest)
    (hfail : paramFails L d.n rest = true) :
    (iteration L st).2 = true ∧
    (iteration L st).1.out = st.out ++
      [Event.stdout (':' :: d.keyword.toList ++ ['\n']),
       Event.stdout (argsMessage d.keyword d.n (reported L d.n st.nargs rest)),
       Event.draw d.r (Matrix.matrix_mult (peek st.stack) (Matrix.new_matrix 4 d.cols)) st.c] ∧
    (iteration L st).1.sd =
      Canvas.draw d.r (Matrix.matrix_mult (peek st.stack) (Matrix.new_matrix 4 d.cols)) st.c
        st.sd := by
  have h := numeric_failure d.toNumeric (toNumeric_mem hd) st rest hcmd hfail
  rw [h]
  simp [DrawCommand.toNumeric, State.rasterize, DrawCommand.batch]

/-- C1, witness: the script `line` with nothing after it. -/
theorem draw_failure_rasterizes_fresh_buffer_witness :
    (iteration decimal (init "line\n".toList)).2 = true ∧
    (iteration decimal (init "line\n".toList)).1.out =
      [Event.stdout ":line\n".toList,
       Event.stdout "Error: 'line' requires 6 arguments of type double, found 0\n".toList,
       Event.draw Raster.draw_lines (Matrix.matrix_mult Matrix.ident (Matrix.new_matrix 4 1))
         (get_color 255 255 255)] ∧
    (iteration decimal (init "line\n".toList)).1.sd =
      Canvas.draw Raster.draw_lines (Matrix.matrix_mult Matrix.ident (Matrix.new_matrix 4 1))
        (get_color 255 255 255) (Canvas.cleared (get_color 0 0 0)) :=
  draw_failure_rasterizes_fresh_buffer
    ⟨"line", 6, 1, Generator.add_edge, Raster.draw_lines⟩ (by simp [drawCommands])
    (init "line\n".toList) [] ⟨"line\n".toList, rfl, by decide, rfl, rfl⟩ (by decide)

/-- C1, counterexample: in the run of the script `line` (the parameter line is
missing) and in the run of `box` followed by the line `1 2 3` (three values
instead of six), a rasterizer is called all the same. -/
theorem draw_failure_counterexample :
    (parse_file decimal "line\n".toList).out =
      [Event.stdout ":line\n".toList,
       Event.stdout "Error: 'line' requires 6 arguments of type double, found 0\n".toList,
       Event.draw Raster.draw_lines (Matrix.matrix_mult Matrix.ident (Matrix.new_matrix 4 1))
         (get_color 255 255 255)] ∧
    (parse_file decimal "box\n1 2 3\n".toList).out =
      [Event.stdout ":box\n".toList,
       Event.stdout "Error: 'box' requires 6 arguments of type double, found 3\n".toList,
       Event.draw Raster.draw_polygons
         (Matrix.matrix_mult Matrix.ident (Matrix.new_matrix 4 36))
         (get_color 255 255 255)] := by
  constructor <;> rfl

/-! ## C2: `clear` -/

/-- C2 (the code at the failing input): the run of `background` / `9 9 9` /
`line` / `0 0 0 10 0 0` / `clear`.  The line `clear` is answered with the
unrecognized-command diagnostic, and the screen and depth map still hold the
rasterized line over the initial black clearing: they are not reset to the
background colour (9, 9, 9). -/
theorem clear_is_unrecognized :
    parse_file decimal "background\n9 9 9\nline\n0 0 0 10 0 0\nclear\n".toList =
      { f := []
        nargs := 6
        ndisplay := 0
        stack := [Matrix.ident]
        sd := Canvas.draw Raster.draw_lines
          (Matrix.matrix_mult Matrix.ident
            (Matrix.add Generator.add_edge (Matrix.new_matrix 4 1)
              [⟨"0".toList⟩, ⟨"0".toList⟩, ⟨"0".toList⟩, ⟨"10".toList⟩, ⟨"0".toList⟩,
                ⟨"0".toList⟩]))
          (get_color 255 255 255) (Canvas.cleared (get_color 0 0 0))
        c := get_color 255 255 255
        back := get_color 9 9 9
        out :=
          [Event.stdout ":background\n".toList,
           Event.stdout ":line\n".toList,
           Event.draw Raster.draw_lines
             (Matrix.matrix_mult Matrix.ident
               (Matrix.add Generator.add_edge (Matrix.new_matrix 4 1)
                 [⟨"0".toList⟩, ⟨"0".toList⟩, ⟨"0".toList⟩, ⟨"10".toList⟩, ⟨"0".toList⟩,
                   ⟨"0".toList⟩]))
             (get_color 255 255 255),
           Event.stdout ":clear\n".toList,
           Event.stdout "Error: unrecognized command 'clear'\n".toList] } := by
  rfl

/-! ## C3: parameter lines with more values than required -/

/-- C4 (the code at the failing input): the run of `scale` / `1 2 3` / `line`
with the input ending after `line`.  No parameter line is read for `line`, and
its diagnostic prints `found 3`, the count left in `nargs` by the preceding
`scale`, not the zero values obtained for `line`. -/
theorem missing_line_reports_stale_count :
    (parse_file decimal "scale\n1 2 3\nline\n".toList).out =
      [Event.stdout ":scale\n".toList,
       Event.stdout ":line\n".toList,
       Event.stdout "Error: 'line' requires 6 arguments of type double, found 3\n".toList,
       Event.draw Raster.draw_lines
         (Matrix.matrix_mult
           (Matrix.matrix_mult Matrix.ident
             (Matrix.make_scale [⟨"1".toList⟩, ⟨"2".toList⟩, ⟨"3".toList⟩]))
           (Matrix.new_matrix 4 1))
         (get_color 255 255 255)] := by
  rfl

/-! ## Frame facts used by several claims -/

theorem argsMessage_not_echo (name : String) (n : Nat) (k : Int) :
    Event.isEcho (Event.stdout (argsMessage name n k)) = false := by
  have h : argsMessage name n k =
      'E' :: ("rror: '".toList ++ name.toList ++ "' requires ".toList ++ (toString n).toList ++
        " arguments of type double, found ".toList ++ fmt_d k ++ ['\n']) := by
    simp [argsMessage, String.toList, String.data_append]
  rw [h]
  rfl

theorem filter_isEcho_append_echo (out : List Event) (line : List Char) (evs : List Event)
    (h : ∀ e ∈ evs, Event.isEcho e = false) :
    (out ++ Event.stdout (':' :: line) :: evs).filter Event.isEcho =
      out.filter Event.isEcho ++ [Event.stdout (':' :: line)] := by
  have h2 : evs.filter Event.isEcho = [] := by
    apply List.filter_eq_nil_iff.mpr
    intro e he
    simp [h e he]
  simp [List.filter_append, List.filter_cons, Event.isEcho, h2]

/-- Neither outcome of a numeric branch touches the input position or
`nargs`, and both append rasterizer calls only. -/
theorem numeric_frame (c : NumericCommand) (hc : c ∈ numericCommands) (s : State)
    (args : List Dbl) :
    ((c.onFailure s).f = s.f ∧ (c.onFailure s).nargs = s.nargs ∧
      ∃ evs, (c.onFailure s).out = s.out ++ evs ∧ ∀ e ∈ evs, Event.isEcho e = false) ∧
    ((c.onSuccess args s).f = s.f ∧ (c.onSuccess args s).nargs = s.nargs ∧
      ∃ evs, (c.onSuccess args s).out = s.out ++ evs ∧ ∀ e ∈ evs, Event.isEcho e = false) := by
  simp only [numericCommands, drawCommands, transformCommands, List.map, List.cons_append,
    List.nil_append, List.mem_cons, List.mem_singleton, List.not_mem_nil, or_false] at hc
  rcases hc with h | h | h | h | h | h | h | h | h | h | h <;> subst h <;>
    first
    | exact ⟨⟨rfl, rfl, [_], rfl, by simp [Event.isEcho]⟩, ⟨rfl, rfl, [_], rfl, by simp [Event.isEcho]⟩⟩
    | exact ⟨⟨rfl, rfl, [], by simp, by simp⟩, ⟨rfl, rfl, [], by simp, by simp⟩⟩

/-- A numeric branch that finds a line to read. -/
theorem numeric_iteration (c : NumericCommand) (hc : c ∈ numericCommands) (st : State)
    (rest argline rest1 : List Char) (hcmd : CommandLine st c.keyword.toList rest)
    (harg : fgets 255 rest = some (argline, rest1)) :
    (iteration L st).2 = true ∧ (iteration L st).1.f = rest1 ∧
    (iteration L st).1.nargs = (sscanf_lf L c.n (cstr argline)).1 ∧
    (iteration L st).1.out.filter Event.isEcho =
      st.out.filter Event.isEcho ++ [Event.stdout (':' :: c.keyword.toList ++ ['\n'])] := by
  by_cases hok : (sscanf_lf L c.n (cstr argline)).1 = (c.n : Int)
  · rw [numeric_success c hc st rest argline rest1 hcmd harg hok]
    obtain ⟨-, hf, hn, evs, ho, he⟩ := numeric_frame c hc
      { st with
        f := rest1
        nargs := c.n
        out := st.out ++ [Event.stdout (':' :: c.keyword.toList ++ ['\n'])] }
      (sscanf_lf L c.n (cstr argline)).2
    refine ⟨rfl, hf, by rw [hn, hok], ?_⟩
    rw [ho]
    simp only [List.append_assoc, List.cons_append, List.nil_append]
    exact filter_isEcho_append_echo _ _ _ he
  · have hfail : paramFails L c.n rest = true := by
      simp [paramFails, harg, hok]
    rw [numeric_failure c hc st rest hcmd hfail]
    obtain ⟨⟨hf, hn, evs, ho, he⟩, -⟩ := numeric_frame c hc
      { st with
        f := match fgets 255 rest with
          | none => rest
          | some (_, rest1) => rest1
        nargs := reported L c.n st.nargs rest
        out := st.out ++ [Event.stdout (':' :: c.keyword.toList ++ ['\n']),
          Event.stdout (argsMessage c.name c.n (reported L c.n st.nargs rest))] } []
    refine ⟨rfl, by rw [hf]; simp [harg], by rw [hn]; simp [reported, harg], ?_⟩
    rw [ho]
    simp only [List.append_assoc, List.cons_append, List.nil_append]
    apply filter_isEcho_append_echo
    intro e he2
    rcases List.mem_cons.mp he2 with h | h
    · rw [h]; exact argsMessage_not_echo _ _ _
    · exact he e h

theorem printf_frame (s : State) (text : List Char) (rest1 : List Char)
    (h : Event.isEcho (Event.stdout text) = false) :
    (({ s with f := rest1 } : State).printf text).f = rest1 ∧
    ∃ evs, (({ s with f := rest1 } : State).printf text).out = s.out ++ evs ∧
      ∀ e ∈ evs, Event.isEcho e = false :=
  ⟨rfl, [Event.stdout text], rfl, by simpa using h⟩

theorem rotate_frame (s : State) (argline rest1 : List Char)
    (h : fgets 255 s.f = some (argline, rest1)) :
    (rotate_cmd L s).f = rest1 ∧
    ∃ evs, (rotate_cmd L s).out = s.out ++ evs ∧ ∀ e ∈ evs, Event.isEcho e = false := by
  unfold rotate_cmd
  rw [h]
  simp only
  split
  · split_ifs
    · exact ⟨rfl, [], by simp, by simp⟩
    · exact ⟨rfl, [], by simp, by simp⟩
    · exact ⟨rfl, [], by simp, by simp⟩
    · exact printf_frame s _ rest1 rfl
  · exact printf_frame s _ rest1 rfl

theorem read_rgb_frame (msg : String) (s : State) (argline rest1 : List Char)
    (hmsg : Event.isEcho (Event.stdout msg.toList) = false)
    (h : fgets 255 s.f = some (argline, rest1)) :
    (read_rgb L msg s).1.f = rest1 ∧
    ∃ evs, (read_rgb L msg s).1.out = s.out ++ evs ∧ ∀ e ∈ evs, Event.isEcho e = false := by
  unfold read_rgb
  rw [h]
  simp only
  split
  · exact ⟨rfl, [], by simp, by simp⟩
  · exact printf_frame s _ rest1 hmsg

theorem save_frame (s : State) (argline rest1 : List Char)
    (h : fgets 255 s.f = some (argline, rest1)) :
    (save_cmd s).f = rest1 ∧
    ∃ evs, (save_cmd s).out = s.out ++ evs ∧ ∀ e ∈ evs, Event.isEcho e = false := by
  unfold save_cmd
  rw [h]
  simp only
  split_ifs
  · exact printf_frame s _ rest1 rfl
  · exact ⟨rfl, [_, _], rfl, by simp [Event.isEcho]⟩

/-- The branches `rotate`, `color`, `background` and `save` when they find a
line to read. -/
theorem other_iteration (kw : String)
    (hkw : kw ∈ ["rotate", "color", "background", "save"]) (st : State)
    (rest argline rest1 : List Char) (hcmd : CommandLine st kw.toList rest)
    (harg : fgets 255 rest = some (argline, rest1)) :
    (iteration L st).2 = true ∧ (iteration L st).1.f = rest1 ∧
    (iteration L st).1.out.filter Event.isEcho =
      st.out.filter Event.isEcho ++ [Event.stdout (':' :: kw.toList ++ ['\n'])] := by
  have hs : (echoed st kw.toList rest).f = rest := rfl
  have ho : (echoed st kw.toList rest).out =
      st.out ++ [Event.stdout (':' :: kw.toList ++ ['\n'])] := rfl
  have key : ∀ s1 : State, s1.f = rest1 →
      (∃ evs, s1.out = (echoed st kw.toList rest).out ++ evs ∧
        ∀ e ∈ evs, Event.isEcho e = false) →
      s1.f = rest1 ∧ s1.out.filter Event.isEcho =
        st.out.filter Event.isEcho ++ [Event.stdout (':' :: kw.toList ++ ['\n'])] := by
    intro s1 hf ⟨evs, hout, hev⟩
    refine ⟨hf, ?_⟩
    rw [hout, ho]
    simp only [List.append_assoc, List.cons_append, List.nil_append]
    exact filter_isEcho_append_echo _ _ _ hev
  rw [iteration_of_commandLine hcmd]
  simp only [List.mem_cons, List.mem_singleton, List.not_mem_nil, or_false] at hkw
  rcases hkw with h | h | h | h <;> subst h
  · have hd : dispatch L "rotate".toList (echoed st "rotate".toList rest) =
        (rotate_cmd L (echoed st "rotate".toList rest), true) := rfl
    rw [hd]
    obtain ⟨h1, h2⟩ := rotate_frame (echoed st "rotate".toList rest) argline rest1 harg
    exact ⟨rfl, key _ h1 h2⟩
  · have hd : dispatch L "color".toList (echoed st "color".toList rest) =
        (match read_rgb L "Error: 'color' requires three integeres\n"
            (echoed st "color".toList rest) with
          | (st1, none) => st1
          | (st1, some rgb) => { st1 with c := rgb }, true) := rfl
    rw [hd]
    obtain ⟨h1, h2⟩ := @read_rgb_frame L "Error: 'color' requires three integeres\n"
      (echoed st "color".toList rest) argline rest1 rfl harg
    refine ⟨rfl, ?_⟩
    apply key
    · simp only; split <;> simp_all
    · simp only; split <;> simp_all
  · have hd : dispatch L "background".toList (echoed st "background".toList rest) =
        (match read_rgb L "Error: 'background' requires three integeres\n"
            (echoed st "background".toList rest) with
          | (st1, none) => st1
          | (st1, some rgb) => { st1 with back := rgb }, true) := rfl
    rw [hd]
    obtain ⟨h1, h2⟩ := @read_rgb_frame L "Error: 'background' requires three integeres\n"
      (echoed st "background".toList rest) argline rest1 rfl harg
    refine ⟨rfl, ?_⟩
    apply key
    · simp only; split <;> simp_all
    · simp only; split <;> simp_all
  · have hd : dispatch L "save".toList (echoed st "save".toList rest) =
        (save_cmd (echoed st "save".toList rest), true) := rfl
    rw [hd]
    obtain ⟨h1, h2⟩ := save_frame (echoed st "save".toList rest) argline rest1 harg
    exact ⟨rfl, key _ h1 h2⟩


theorem paramKeywords_cases {kw : String} (hkw : kw ∈ paramKeywords) :
    (∃ c ∈ numericCommands, c.keyword = kw) ∨
      kw ∈ ["rotate", "color", "background", "save"] := by
  have h : paramKeywords =
      numericCommands.map (fun c => c.keyword) ++ ["rotate", "color", "background", "save"] :=
    rfl
  rw [h, List.mem_append, List.mem_map] at hkw
  exact hkw

/-! ## C5: carriage returns -/

/-- C5 (as amended): for every run state, if the input at a command position
begins with a line of at most 253 characters (a command line, a blank line or
a comment line) that contains a carriage return which no NUL byte precedes,
the run ends there: the message about line endings goes to standard error,
nothing of that line is echoed or executed, and no later line is read.  The
parameter line read inside the branch of a command is not checked: whatever
it holds, a carriage return included, the pass consumes it and the loop goes
on. -/
theorem carriage_return_aborts (st : State) (body more : List Char) (fuel : Nat)
    (hline : BeginsWithLine st.f body more) (hcr : '\r' ∈ cstr body) :
    run L (fuel + 1) st = { st with f := more, out := st.out ++ [Event.stderr crMessage] } ∧
    ∀ (kw : String) (s : State) (rest argline rest1 : List Char), kw ∈ paramKeywords →
      CommandLine s kw.toList rest → fgets 255 rest = some (argline, rest1) →
      (iteration L s).2 = true ∧ (iteration L s).1.f = rest1 := by
  constructor
  · obtain ⟨raw, hread, hraw⟩ := fgets_beginsWithLine hline
    have hcr2 : '\r' ∈ cstr raw := by
      rcases hraw with h | h
      · rw [h]
        exact cstr_append_mem _ _ _ hcr
      · rw [h]
        exact hcr
    simp [run, iteration, hread, hcr2]
  · intro kw s rest argline rest1 hkw hcmd harg
    rcases paramKeywords_cases hkw with ⟨c, hc, rfl⟩ | h
    · have := @numeric_iteration L c hc s rest argline rest1 hcmd harg
      exact ⟨this.1, this.2.1⟩
    · have := @other_iteration L kw h s rest argline rest1 hcmd harg
      exact ⟨this.1, this.2.1⟩

/-- C5, witness: a comment line with a carriage return, followed by `push`. -/
theorem carriage_return_aborts_witness :
    parse_file decimal "#a\r\npush\n".toList =
      { init "#a\r\npush\n".toList with
        f := "push\n".toList
        out := [Event.stderr crMessage] } :=
  (@carriage_return_aborts decimal (init "#a\r\npush\n".toList) "#a\r".toList "push\n".toList
    "#a\r\npush\n".toList.length ⟨by decide, by decide, Or.inl rfl⟩ (by decide)).1

set_option maxRecDepth 100000 in
/-- C5, counterexample: three scripts in which a consumed line contains a
carriage return.  (1) `scale` / `1 2 3` / `push`, where the parameter line
`1 2 3` ends with a carriage return: the run does not abort, the scale is
applied, and the later line `push` is echoed and executed.  (2) A line of 254
letters `a` followed by a carriage return: the first 254 characters are read
without the carriage return, so 253 of them are echoed and diagnosed as a
command before the rest of the line, read next, ends the run.  (3) The line
`pushX`, a NUL byte and a carriage return: the C string read ends at the NUL
byte, so the carriage return is not seen and the line is executed as `push`. -/
theorem carriage_return_counterexample :
    parse_file decimal "scale\n1 2 3\r\npush\n".toList =
      { f := []
        nargs := 3
        ndisplay := 0
        stack :=
          [Matrix.matrix_mult Matrix.ident
            (Matrix.make_scale [⟨"1".toList⟩, ⟨"2".toList⟩, ⟨"3".toList⟩]),
           Matrix.matrix_mult Matrix.ident
            (Matrix.make_scale [⟨"1".toList⟩, ⟨"2".toList⟩, ⟨"3".toList⟩])]
        sd := Canvas.cleared (get_color 0 0 0)
        c := get_color 255 255 255
        back := get_color 0 0 0
        out := [Event.stdout ":scale\n".toList, Event.stdout ":push\n".toList] } ∧
    (parse_file decimal (List.replicate 254 'a' ++ ['\r', '\n'])).out =
      [Event.stdout (':' :: List.replicate 253 'a' ++ ['\n']),
       Event.stdout ("Error: unrecognized command '".toList ++ List.replicate 253 'a' ++
         "'\n".toList),
       Event.stderr crMessage] ∧
    parse_file decimal ['p', 'u', 's', 'h', 'X', NUL, '\r', '\n'] =
      { init [] with
        stack := [Matrix.ident, Matrix.ident]
        out := [Event.stdout ":push\n".toList] } := by
  refine ⟨?_, ?_, ?_⟩ <;> decide

/-! ## C6 and C7: the line read as the parameter line -/

/-- C6 (as amended): for every command whose branch reads a parameter line,
when the command line is followed by a line of at most 253 characters, that
very next line is the one consumed as the parameter line, whatever it holds,
a blank line or a comment included: after the command the input stands right
behind that line, and for the commands that read values of type double it is
the text of that line (with its newline, when it has one) from which `sscanf`
takes the values. -/
theorem parameter_line_is_next_line (kw : String) (hkw : kw ∈ paramKeywords) (st : State)
    (rest argline rest1 : List Char) (hcmd : CommandLine st kw.toList rest)
    (hline : BeginsWithLine rest argline rest1) :
    (iteration L st).1.f = rest1 ∧
    ∃ raw, (raw = argline ++ ['\n'] ∨ raw = argline) ∧
      ∀ c ∈ numericCommands, c.keyword = kw →
        (iteration L st).1.nargs = (sscanf_lf L c.n (cstr raw)).1 := by
  obtain ⟨raw, harg, hraw⟩ := fgets_beginsWithLine hline
  constructor
  · rcases paramKeywords_cases hkw with ⟨c, hc, rfl⟩ | h
    · exact (numeric_iteration c hc st rest raw rest1 hcmd harg).2.1
    · exact (other_iteration kw h st rest raw rest1 hcmd harg).2.1
  · refine ⟨raw, hraw, ?_⟩
    intro c hc hk
    subst hk
    exact (numeric_iteration c hc st rest raw rest1 hcmd harg).2.2.1

/-- C6, witness: `scale`, then a comment line, then `1 2 3`: the comment line
is consumed as the parameter line. -/
theorem parameter_line_is_next_line_witness :
    (iteration decimal (init "scale\n#c\n1 2 3\n".toList)).1.f = "1 2 3\n".toList ∧
    ∃ raw, (raw = "#c".toList ++ ['\n'] ∨ raw = "#c".toList) ∧
      ∀ c ∈ numericCommands, c.keyword = "scale" →
        (iteration decimal (init "scale\n#c\n1 2 3\n".toList)).1.nargs =
          (sscanf_lf decimal c.n (cstr raw)).1 :=
  @parameter_line_is_next_line decimal "scale" (by decide) (init "scale\n#c\n1 2 3\n".toList)
    "#c\n1 2 3\n".toList "#c".toList "1 2 3\n".toList
    ⟨"scale\n".toList, rfl, by decide, rfl, rfl⟩ ⟨by decide, by decide, Or.inl rfl⟩

set_option maxRecDepth 100000 in
/-- C6, counterexample: (1) `scale`, then the comment line `#c`, then `1 2 3`.
The comment line is not skipped: it is parsed as the parameters of `scale`,
which fails, and the line `1 2 3` is then read as a command.  (2) `scale`,
then a comment line of `#` and 254 letters `a`: its first 254 characters are
consumed as the parameter line, and what is left of the line, `a`, is then
read as a command. -/
theorem parameter_line_counterexample :
    parse_file decimal "scale\n#c\n1 2 3\n".toList =
      { f := []
        nargs := 0
        ndisplay := 0
        stack := [Matrix.ident]
        sd := Canvas.cleared (get_color 0 0 0)
        c := get_color 255 255 255
        back := get_color 0 0 0
        out :=
          [Event.stdout ":scale\n".toList,
           Event.stdout "Error: 'scale' requires 3 arguments of type double, found 0\n".toList,
           Event.stdout ":1 2 3\n".toList,
           Event.stdout "Error: unrecognized command '1 2 3'\n".toList] } ∧
    (parse_file decimal ("scale\n".toList ++ '#' :: List.replicate 254 'a' ++ ['\n'])).out =
      [Event.stdout ":scale\n".toList,
       Event.stdout "Error: 'scale' requires 3 arguments of type double, found 0\n".toList,
       Event.stdout ":a\n".toList,
       Event.stdout "Error: unrecognized command 'a'\n".toList] := by
  refine ⟨?_, ?_⟩ <;> decide

/-- C7 (as amended): for every command whose branch reads a parameter line
and every input in which the command line is followed by a line of at most
253 characters, exactly that one line is consumed as the parameter line,
whether or not it parses: the pass echoes the command line and nothing else
(the parameter line is never echoed), the input then stands right behind the
parameter line, and the loop goes on from there. -/
theorem parameter_line_consumed_once (kw : String) (hkw : kw ∈ paramKeywords) (st : State)
    (rest argline rest1 : List Char) (fuel : Nat) (hcmd : CommandLine st kw.toList rest)
    (hline : BeginsWithLine rest argline rest1) :
    (iteration L st).1.f = rest1 ∧
    (iteration L st).1.out.filter Event.isEcho =
      st.out.filter Event.isEcho ++ [Event.stdout (':' :: kw.toList ++ ['\n'])] ∧
    run L (fuel + 1) st = run L fuel (iteration L st).1 := by
  obtain ⟨raw, harg, -⟩ := fgets_beginsWithLine hline
  have h : (iteration L st).2 = true ∧ (iteration L st).1.f = rest1 ∧
      (iteration L st).1.out.filter Event.isEcho =
        st.out.filter Event.isEcho ++ [Event.stdout (':' :: kw.toList ++ ['\n'])] := by
    rcases paramKeywords_cases hkw with ⟨c, hc, rfl⟩ | h
    · have := @numeric_iteration L c hc st rest raw rest1 hcmd harg
      exact ⟨this.1, this.2.1, this.2.2.2⟩
    · exact other_iteration kw h st rest raw rest1 hcmd harg
  refine ⟨h.2.1, h.2.2, ?_⟩
  simp [run, h.1]

/-- C7, witness: `scale` followed by the line `push` and then `pop`: the line
`push` is consumed as the parameter line, and the run goes on with `pop`. -/
theorem parameter_line_consumed_once_witness :
    (iteration decimal (init "scale\npush\npop\n".toList)).1.f = "pop\n".toList ∧
    (iteration decimal (init "scale\npush\npop\n".toList)).1.out.filter Event.isEcho =
      (init "scale\npush\npop\n".toList).out.filter Event.isEcho ++
        [Event.stdout (':' :: "scale".toList ++ ['\n'])] ∧
    run decimal (2 + 1) (init "scale\npush\npop\n".toList) =
      run decimal 2 (iteration decimal (init "scale\npush\npop\n".toList)).1 :=
  @parameter_line_consumed_once decimal "scale" (by decide) (init "scale\npush\npop\n".toList)
    "push\npop\n".toList "push".toList "pop\n".toList 2
    ⟨"scale\n".toList, rfl, by decide, rfl, rfl⟩ ⟨by decide, by decide, Or.inl rfl⟩

set_option maxRecDepth 100000 in
/-- C7, counterexample: `scale` followed by one line that holds 254 blanks
and then `push`.  The first 254 characters of that line are consumed as the
parameter line, which yields no value; what is left of the same line, `push`,
is then read as a command line, echoed and executed: the stack grows. -/
theorem parameter_line_consumed_counterexample :
    parse_file decimal ("scale\n".toList ++ List.replicate 254 ' ' ++ "push\n".toList) =
      { init [] with
        nargs := -1
        stack := [Matrix.ident, Matrix.ident]
        out :=
          [Event.stdout ":scale\n".toList,
           Event.stdout "Error: 'scale' requires 3 arguments of type double, found -1\n".toList,
           Event.stdout ":push\n".toList] } := by
  decide

/-! ## The loop reaches its end -/

theorem read_lf_f_le (n : Nat) (msg : String) (s : State) :
    (read_lf L n msg s).1.f.length ≤ s.f.length := by
  rw [read_lf_eq]
  cases h : fgets 255 s.f with
  | none => simp [State.printf]
  | some p =>
    obtain ⟨argline, rest⟩ := p
    have := fgets_length h
    simp only
    split_ifs <;> simp [State.printf] <;> omega

theorem draw_cmd_f_le (n : Nat) (msg : String) (buf : Matrix) (g : Generator) (r : Raster)
    (s : State) : (draw_cmd L n msg buf g r s).f.length ≤ s.f.length := by
  have := @read_lf_f_le L n msg s
  unfold draw_cmd
  split <;> simp_all [State.rasterize]

theorem transform_cmd_f_le (msg : String) (make : List Dbl → Matrix) (s : State) :
    (transform_cmd L msg make s).f.length ≤ s.f.length := by
  have := @read_lf_f_le L 3 msg s
  unfold transform_cmd
  split <;> simp_all

theorem rotate_cmd_f_le (s : State) : (rotate_cmd L s).f.length ≤ s.f.length := by
  unfold rotate_cmd
  cases h : fgets 255 s.f with
  | none => simp [State.printf]
  | some p =>
    obtain ⟨argline, rest⟩ := p
    have := fgets_length h
    simp only
    split
    · split_ifs <;> simp [State.printf] <;> omega
    · simp [State.printf]; omega

theorem read_rgb_f_le (msg : String) (s : State) :
    (read_rgb L msg s).1.f.length ≤ s.f.length := by
  unfold read_rgb
  cases h : fgets 255 s.f with
  | none => simp [State.printf]
  | some p =>
    obtain ⟨argline, rest⟩ := p
    have := fgets_length h
    simp only
    split <;> simp [State.printf] <;> omega

theorem save_cmd_f_le (s : State) : (save_cmd s).f.length ≤ s.f.length := by
  unfold save_cmd
  cases h : fgets 255 s.f with
  | none => simp [State.printf]
  | some p =>
    obtain ⟨argline, rest⟩ := p
    have := fgets_length h
    simp only
    split_ifs <;> simp [State.printf] <;> omega

theorem ite_both {α : Type} (P : α → Prop) (c : Prop) [Decidable c] (a b : α) (ha : P a)
    (hb : P b) : P (if c then a else b) := by
  split <;> assumption

theorem dispatch_f_le (line : List Char) (s : State) :
    (dispatch L line s).1.f.length ≤ s.f.length := by
  unfold dispatch
  refine ite_both (fun r : State × Bool => r.1.f.length ≤ s.f.length) _ _ _ (Nat.le_refl _) ?_
  refine ite_both (fun r : State × Bool => r.1.f.length ≤ s.f.length) _ _ _ (draw_cmd_f_le _ _ _ _ _ s) ?_
  refine ite_both (fun r : State × Bool => r.1.f.length ≤ s.f.length) _ _ _ (draw_cmd_f_le _ _ _ _ _ s) ?_
  refine ite_both (fun r : State × Bool => r.1.f.length ≤ s.f.length) _ _ _ (draw_cmd_f_le _ _ _ _ _ s) ?_
  refine ite_both (fun r : State × Bool => r.1.f.length ≤ s.f.length) _ _ _ (draw_cmd_f_le _ _ _ _ _ s) ?_
  refine ite_both (fun r : State × Bool => r.1.f.length ≤ s.f.length) _ _ _ (draw_cmd_f_le _ _ _ _ _ s) ?_
  refine ite_both (fun r : State × Bool => r.1.f.length ≤ s.f.length) _ _ _ (draw_cmd_f_le _ _ _ _ _ s) ?_
  refine ite_both (fun r : State × Bool => r.1.f.length ≤ s.f.length) _ _ _ (draw_cmd_f_le _ _ _ _ _ s) ?_
  refine ite_both (fun r : State × Bool => r.1.f.length ≤ s.f.length) _ _ _ (draw_cmd_f_le _ _ _ _ _ s) ?_
  refine ite_both (fun r : State × Bool => r.1.f.length ≤ s.f.length) _ _ _ (Nat.le_refl _) ?_
  refine ite_both (fun r : State × Bool => r.1.f.length ≤ s.f.length) _ _ _ (Nat.le_refl _) ?_
  refine ite_both (fun r : State × Bool => r.1.f.length ≤ s.f.length) _ _ _ (transform_cmd_f_le _ _ s) ?_
  refine ite_both (fun r : State × Bool => r.1.f.length ≤ s.f.length) _ _ _ (transform_cmd_f_le _ _ s) ?_
  refine ite_both (fun r : State × Bool => r.1.f.length ≤ s.f.length) _ _ _ (rotate_cmd_f_le s) ?_
  refine ite_both (fun r : State × Bool => r.1.f.length ≤ s.f.length) _ _ _ ?_ ?_
  · have := @read_rgb_f_le L "Error: 'color' requires three integeres\n" s
    simp only
    split <;> simp_all
  refine ite_both (fun r : State × Bool => r.1.f.length ≤ s.f.length) _ _ _ ?_ ?_
  · have := @read_rgb_f_le L "Error: 'background' requires three integeres\n" s
    simp only
    split <;> simp_all
  refine ite_both (fun r : State × Bool => r.1.f.length ≤ s.f.length) _ _ _ (Nat.le_refl _) ?_
  refine ite_both (fun r : State × Bool => r.1.f.length ≤ s.f.length) _ _ _ (save_cmd_f_le s) ?_
  exact ite_both (fun r : State × Bool => r.1.f.length ≤ s.f.length) _ _ _ (Nat.le_refl _) (Nat.le_refl _)

/-- A pass after which the loop goes on has consumed at least one character. -/
theorem iteration_decreases (st : State) (h : (iteration L st).2 = true) :
    (iteration L st).1.f.length < st.f.length := by
  unfold iteration at h ⊢
  cases hf : fgets 255 st.f with
  | none => simp [hf] at h
  | some p =>
    obtain ⟨raw, rest⟩ := p
    have hlt := fgets_length hf
    simp only [hf] at h ⊢
    by_cases hcr : '\r' ∈ cstr raw
    · simp [hcr] at h
    · by_cases hsk : skipped (strip raw) = true
      · simpa [hcr, hsk] using hlt
      · have := @dispatch_f_le L (strip raw)
          (({ st with f := rest } : State).printf (':' :: strip raw ++ ['\n']))
        rw [if_neg hcr, if_neg hsk]
        simp only [State.printf] at this ⊢
        omega

/-- The result of the loop does not depend on the fuel once the fuel exceeds
the length of the unread input. -/
theorem run_fuel (n m : Nat) (st : State) (hn : st.f.length < n) (hm : st.f.length < m) :
    run L n st = run L m st := by
  induction n generalizing m st with
  | zero => omega
  | succ n ih =>
    cases m with
    | zero => omega
    | succ m =>
      simp only [run]
      by_cases h : (iteration L st).2 = true
      · have := iteration_decreases st h
        simp only [h, if_true]
        exact ih m _ (by omega) (by omega)
      · simp [h]

/-- The run of `parse_file` is a run of the loop that has reached its end:
more fuel does not change it. -/
theorem parse_file_fuel (script : List Char) (n : Nat) (hn : script.length < n) :
    run L n (init script) = parse_file L script :=
  run_fuel n (script.length + 1) (init script) hn (Nat.lt_succ_self _)

/-- With enough fuel the loop has ended: one more pass from the final state
would stop at once or find the input exhausted. -/
theorem run_ends (n : Nat) (st : State) (hn : st.f.length < n) :
    run L (n + 1) st = run L n st :=
  run_fuel (n + 1) n st (by omega) hn

/-! ## C8: blank lines and comment lines -/

theorem cstr_of_no_nul (l : List Char) (h : NUL ∉ l) : cstr l = l := by
  unfold cstr
  rw [List.takeWhile_eq_self_iff]
  intro c hc
  simp only [bne_iff_ne, ne_eq]
  intro hn
  exact h (hn ▸ hc)

/-- A pass that reads a blank or comment line only moves the input position. -/
theorem iteration_skipped (st : State) (body post : List Char) (hlen : body.length ≤ 253)
    (hnl : '\n' ∉ body) (hcr : '\r' ∉ body) (hnul : NUL ∉ body)
    (hskip : skipped body = true) :
    iteration L { st with f := body ++ '\n' :: post } = ({ st with f := post }, true) := by
  have hc : cstr (body ++ ['\n']) = body ++ ['\n'] := by
    apply cstr_of_no_nul
    simp only [List.mem_append, List.mem_singleton, not_or]
    exact ⟨hnul, by decide⟩
  have hcr2 : '\r' ∉ cstr (body ++ ['\n']) := by
    rw [hc]
    simp only [List.mem_append, List.mem_singleton, not_or]
    exact ⟨hcr, by decide⟩
  have hs : strip (body ++ ['\n']) = body := by
    simp [strip, hc]
  unfold iteration
  simp only [fgets_line body post hlen hnl]
  rw [if_neg hcr2, hs, if_pos hskip]

theorem passes_run (k : Nat) (st s1 : State) (h : passes L k st = some s1) (n : Nat)
    (hn : st.f.length < n) : run L n st = run L (s1.f.length + 1) s1 := by
  induction k generalizing st n with
  | zero =>
    simp only [passes, Option.some.injEq] at h
    subst h
    exact run_fuel _ _ _ hn (Nat.lt_succ_self _)
  | succ k ih =>
    simp only [passes] at h
    by_cases hgo : (iteration L st).2 = true
    · rw [if_pos hgo] at h
      have hdec := iteration_decreases st hgo
      cases n with
      | zero => omega
      | succ n =>
        simp only [run, hgo, if_true]
        exact ih _ h n (by omega)
    · rw [if_neg hgo] at h
      cases h

/-- C8 (as amended): for every script text `pre` that ends at a command
position and every text `post` that follows it, inserting between them a
line of at most 253 characters before its newline that holds no carriage
return and no NUL byte and is blank, or starts with `#`, or starts with `//`,
changes nothing: the two runs end in the same state, with the same trace and
diagnostics, the same rasterizer and image-write calls, the same stack,
colours and display counter. -/
theorem skipped_line_changes_nothing (pre body post : List Char)
    (hpos : AtCommandPosition L pre) (hlen : body.length ≤ 253) (hnl : '\n' ∉ body)
    (hcr : '\r' ∉ body) (hnul : NUL ∉ body) (hskip : skipped body = true) :
    parse_file L (pre ++ (body ++ '\n' :: post)) = parse_file L (pre ++ post) := by
  obtain ⟨k, s, hk⟩ := hpos
  have h1 := passes_run k _ _ (hk (body ++ '\n' :: post))
    ((pre ++ (body ++ '\n' :: post)).length + 1) (Nat.lt_succ_self _)
  have h2 := passes_run k _ _ (hk post) ((pre ++ post).length + 1) (Nat.lt_succ_self _)
  have h3 := @iteration_skipped L s body post hlen hnl hcr hnul hskip
  have h4 : run L ((body ++ '\n' :: post).length + 1) { s with f := body ++ '\n' :: post } =
      run L (body ++ '\n' :: post).length { s with f := post } := by
    rw [run, h3]
    rfl
  unfold parse_file
  rw [h1, h2]
  show run L ((body ++ '\n' :: post).length + 1) _ = run L (post.length + 1) _
  rw [h4]
  apply run_fuel
  · simp
    omega
  · simp

/-- C8, witness: the comment line `# note` inserted between `push` and `pop`. -/
theorem skipped_line_changes_nothing_witness :
    parse_file decimal ("push\n".toList ++ ("# note".toList ++ '\n' :: "pop\n".toList)) =
      parse_file decimal ("push\n".toList ++ "pop\n".toList) :=
  skipped_line_changes_nothing "push\n".toList "# note".toList "pop\n".toList
    ⟨1, { init [] with
          stack := [Matrix.ident, Matrix.ident]
          out := [Event.stdout ":push\n".toList] }, fun _ => rfl⟩
    (by decide) (by decide) (by decide) (by decide) rfl

set_option maxRecDepth 100000 in
/-- C8, counterexample: two comment lines inserted into the empty script,
which by itself prints nothing.  (1) The line `#` followed by 254 letters
`a`: its first 254 characters are read and skipped as a comment, and what is
left of the line, `a`, is then read, echoed and diagnosed as a command.
(2) The line `//` followed by a NUL byte: the C string read is `//`, its last
character is removed, and the remaining `/` is echoed and diagnosed as a
command. -/
theorem skipped_line_counterexample :
    (parse_file decimal []).out = [] ∧
    (parse_file decimal ('#' :: List.replicate 254 'a' ++ ['\n'])).out =
      [Event.stdout ":a\n".toList,
       Event.stdout "Error: unrecognized command 'a'\n".toList] ∧
    (parse_file decimal ['/', '/', NUL, '\n']).out =
      [Event.stdout ":/\n".toList,
       Event.stdout "Error: unrecognized command '/'\n".toList] := by
  refine ⟨?_, ?_, ?_⟩ <;> decide

/-! ## C9: the echo of a command line -/

/-- C9 (the code at the failing input): the run of the script `quit` without
a final newline.  The last character of the line is removed although it is no
line terminator: the echo is `:qui`, not `:quit`, and the line is then
diagnosed as unrecognized. -/
theorem echo_drops_last_character :
    (parse_file decimal "quit".toList).out =
      [Event.stdout ":qui\n".toList,
       Event.stdout "Error: unrecognized command 'qui'\n".toList] := by
  rfl

/-! ## C10: unrecognized command lines -/

/-- The read of a line that a newline ends, of at most 253 characters, without
carriage return or NUL byte, neither blank nor a comment: a command line with
the text of the line. -/
theorem commandLine_of_line (st : State) (line rest : List Char)
    (hf : st.f = line ++ '\n' :: rest) (hlen : line.length ≤ 253) (hnl : '\n' ∉ line)
    (hcr : '\r' ∉ line) (hnul : NUL ∉ line) (hskip : skipped line = false) :
    CommandLine st line rest := by
  have hc : cstr (line ++ ['\n']) = line ++ ['\n'] := by
    apply cstr_of_no_nul
    simp only [List.mem_append, List.mem_singleton, not_or]
    exact ⟨hnul, by decide⟩
  refine ⟨line ++ ['\n'], ?_, ?_, ?_, hskip⟩
  · rw [hf]
    exact fgets_line line rest hlen hnl
  · rw [hc]
    simp only [List.mem_append, List.mem_singleton, not_or]
    exact ⟨hcr, by decide⟩
  · simp [strip, hc]

/-- C10 (as amended): for every run state whose input begins with a line that
a newline ends, of at most 253 characters, without carriage return or NUL
byte, neither blank nor a comment, and whose text is none of the keywords
tested by the dispatch, the pass echoes the line, prints the diagnostic that
quotes the exact text of the line, reads no further line, and leaves the
stack, both colours, the display counter, the screen and the depth map
unchanged; the loop goes on with the next line. -/
theorem unrecognized_command (st : State) (line rest : List Char)
    (hf : st.f = line ++ '\n' :: rest) (hlen : line.length ≤ 253) (hnl : '\n' ∉ line)
    (hcr : '\r' ∉ line) (hnul : NUL ∉ line) (hskip : skipped line = false)
    (hkw : ∀ kw ∈ keywords, line ≠ kw.toList) :
    iteration L st =
      ({ st with
         f := rest
         out := st.out ++
           [Event.stdout (':' :: line ++ ['\n']),
            Event.stdout ("Error: unrecognized command '".toList ++ line ++ "'\n".toList)] },
        true) := by
  rw [iteration_of_commandLine (commandLine_of_line st line rest hf hlen hnl hcr hnul hskip)]
  unfold dispatch
  have hq := hkw "quit" (by decide)
  have hor : ¬ (line = "translate".toList ∨ line = "move".toList) := by
    rintro (h | h)
    · exact hkw "translate" (by decide) h
    · exact hkw "move" (by decide) h
  rw [if_neg hq, if_neg (hkw "line" (by decide)), if_neg (hkw "polygon" (by decide)),
    if_neg (hkw "box" (by decide)), if_neg (hkw "sphere" (by decide)),
    if_neg (hkw "torus" (by decide)), if_neg (hkw "circle" (by decide)),
    if_neg (hkw "bezier" (by decide)), if_neg (hkw "hermite" (by decide)),
    if_neg (hkw "push" (by decide)), if_neg (hkw "pop" (by decide)),
    if_neg (hkw "scale" (by decide)), if_neg hor, if_neg (hkw "rotate" (by decide)),
    if_neg (hkw "color" (by decide)), if_neg (hkw "background" (by decide)),
    if_neg (hkw "display" (by decide)), if_neg (hkw "save" (by decide)), if_neg hq]
  simp [echoed, State.printf]

/-- C10, witness: the line `hello`, followed by `push`. -/
theorem unrecognized_command_witness :
    iteration decimal (init "hello\npush\n".toList) =
      ({ init "hello\npush\n".toList with
         f := "push\n".toList
         out := [Event.stdout ":hello\n".toList,
           Event.stdout "Error: unrecognized command 'hello'\n".toList] }, true) :=
  @unrecognized_command decimal (init "hello\npush\n".toList) "hello".toList "push\n".toList
    rfl (by decide) (by decide) (by decide) (by decide) rfl (by decide)

set_option maxRecDepth 100000 in
/-- C10, counterexample: two command lines whose text is no keyword.  (1) The
line of 254 letters `a` followed by `push`: its first 254 characters are
read, so the echo and the diagnostic quote 253 letters `a`, not the text of
the line, and what is left of the line, `push`, is then read as a command and
executed: the stack grows.  (2) The line `hello` with a carriage return
before its newline, followed by `push`: no diagnostic is printed and the loop
does not go on, the run ends with the message about line endings. -/
theorem unrecognized_command_counterexample :
    parse_file decimal (List.replicate 254 'a' ++ "push\n".toList) =
      { init [] with
        stack := [Matrix.ident, Matrix.ident]
        out :=
          [Event.stdout (':' :: List.replicate 253 'a' ++ ['\n']),
           Event.stdout ("Error: unrecognized command '".toList ++ List.replicate 253 'a' ++
             "'\n".toList),
           Event.stdout ":push\n".toList] } ∧
    parse_file decimal "hello\r\npush\n".toList =
      { init "push\n".toList with out := [Event.stderr crMessage] } := by
  refine ⟨?_, ?_⟩ <;> decide

/-! ## C11: the axis and the angle of `rotate` -/

/-- C11 (the code at the failing input): the run of `rotate` followed by the
line ` x 90`, whose axis token is `x` and whose angle is `90`, after one
leading blank.  The conversion `%c` does not skip white space and takes the
blank as the axis; no angle can then be read from `x 90`, so the rotation is
not applied: the diagnostic that asks for both an axis and an angle is
printed, and the stack is unchanged. -/
theorem rotate_leading_blank_rejected :
    parse_file decimal "rotate\n x 90\n".toList =
      { init [] with
        out := [Event.stdout ":rotate\n".toList,
          Event.stdout "Error: 'rotate' requires both an axis and an angle\n".toList] } := by
  rfl

/-! ## C12: the names written by `display` -/

/-- One pass on a line `display`. -/
theorem display_pass (st : State) (x : List Char) :
    iteration L { st with f := "display\n".toList ++ x } =
      ({ st with
         f := x
         ndisplay := st.ndisplay + 1
         out := st.out ++
           [Event.stdout ":display\n".toList,
            Event.save_extension st.sd
              (Filename.store 16 ("display-".toList ++ fmt_d st.ndisplay ++ ".png".toList))] },
        true) := by
  have h : iteration L { st with f := "display\n".toList ++ x } =
      (display_cmd (echoed st "display".toList x), true) := rfl
  rw [h]
  simp [display_cmd, echoed, State.printf]

theorem displayScript_succ (n : Nat) :
    displayScript (n + 1) = displayScript n ++ "display\n".toList := by
  induction n with
  | zero => rfl
  | succ n ih =>
    calc displayScript (n + 1 + 1)
        = "display\n".toList ++ displayScript (n + 1) := rfl
      _ = "display\n".toList ++ (displayScript n ++ "display\n".toList) := by rw [ih]
      _ = ("display\n".toList ++ displayScript n) ++ "display\n".toList := by
          rw [List.append_assoc]
      _ = displayScript (n + 1) ++ "display\n".toList := rfl

/-- After `n` lines `display` the counter has grown by `n`; the stack, the
colours, the screen and the depth map are as before. -/
theorem display_passes (n : Nat) (st : State) (x : List Char) :
    ∃ evs, passes L n { st with f := displayScript n ++ x } =
      some { st with f := x, ndisplay := st.ndisplay + n, out := st.out ++ evs } := by
  induction n generalizing st with
  | zero => exact ⟨[], by simp [passes, displayScript]⟩
  | succ n ih =>
    have h : displayScript (n + 1) ++ x = "display\n".toList ++ (displayScript n ++ x) := by
      simp [displayScript, List.append_assoc]
    obtain ⟨evs, he⟩ := ih
      { st with
        ndisplay := st.ndisplay + 1
        out := st.out ++
          [Event.stdout ":display\n".toList,
           Event.save_extension st.sd
             (Filename.store 16 ("display-".toList ++ fmt_d st.ndisplay ++ ".png".toList))] }
    refine ⟨[Event.stdout ":display\n".toList,
           Event.save_extension st.sd
             (Filename.store 16 ("display-".toList ++ fmt_d st.ndisplay ++ ".png".toList))]
           ++ evs, ?_⟩
    rw [h, passes, display_pass]
    simp only [if_true]
    rw [he]
    simp [Nat.add_assoc, Nat.add_comm 1 n, List.append_assoc]

theorem init_eq (x : List Char) : init x = { init [] with f := x } := rfl

/-- The run of `n + 1` lines `display`: the last image write is that of the
counter value `n`. -/
theorem display_run (n : Nat) :
    ∃ earlier, parse_file L (displayScript (n + 1)) =
      { init [] with
        ndisplay := n + 1
        out := earlier ++
          [Event.stdout ":display\n".toList,
           Event.save_extension (Canvas.cleared (get_color 0 0 0))
             (Filename.store 16 ("display-".toList ++ fmt_d (n : Nat) ++ ".png".toList))] } := by
  obtain ⟨evs, he⟩ := display_passes n (init []) "display\n".toList
  have hs : displayScript (n + 1) = displayScript n ++ "display\n".toList :=
    displayScript_succ n
  have he2 : passes L n (init (displayScript (n + 1))) =
      some { init [] with
        f := "display\n".toList
        ndisplay := (init []).ndisplay + n
        out := (init []).out ++ evs } := by
    rw [hs, init_eq]
    exact he
  have h1 := passes_run n (init (displayScript (n + 1))) _ he2
    ((displayScript (n + 1)).length + 1) (Nat.lt_succ_self _)
  have h3 : ∀ s : State, run L ("display\n".toList.length + 1) { s with f := "display\n".toList } =
      { s with
        f := []
        ndisplay := s.ndisplay + 1
        out := s.out ++
          [Event.stdout ":display\n".toList,
           Event.save_extension s.sd
             (Filename.store 16 ("display-".toList ++ fmt_d s.ndisplay ++ ".png".toList))] } := by
    intro s
    have hp := @display_pass L s []
    rw [List.append_nil] at hp
    rw [run, hp]
    rfl
  refine ⟨(init []).out ++ evs, ?_⟩
  unfold parse_file
  rw [h1]
  have h4 := h3 { init [] with
        ndisplay := (init []).ndisplay + n
        out := (init []).out ++ evs }
  simp only [init, Nat.zero_add, List.nil_append] at h4 ⊢
  exact h4

/-- C12 (the code at the failing input): the run of 1001 lines `display`.
The counter ends at 1001, and the last image write, that of the display
counted 1000, receives an indeterminate name: `sprintf` has written the 16
characters of `display-1000.png` and the terminating NUL into the 16-byte
buffer. -/
theorem display_name_overflows :
    ∃ earlier, parse_file decimal (displayScript (1000 + 1)) =
      { init [] with
        ndisplay := 1000 + 1
        out := earlier ++
          [Event.stdout ":display\n".toList,
           Event.save_extension (Canvas.cleared (get_color 0 0 0))
             Filename.indeterminate] } := by
  have h4 : Filename.store 16 ("display-".toList ++ fmt_d ((1000 : Nat) : Int) ++
      ".png".toList) = Filename.indeterminate := by decide
  have h := @display_run decimal 1000
  rw [h4] at h
  exact h

/-! ## C13: `save` without a file name -/

/-- C13 (the code at the failing input): the run of `save` followed by a
blank line.  `sscanf` returns EOF, which is not 0, so no diagnostic is
printed: `saving as` is printed and the image encoder is called, with the
bytes of a buffer into which nothing was stored as the file name. -/
theorem save_blank_line_writes_image :
    (parse_file decimal "save\n\n".toList).out =
      [Event.stdout ":save\n".toList,
       Event.stdout_saving_as Filename.indeterminate,
       Event.save_extension (Canvas.cleared (get_color 0 0 0)) Filename.indeterminate] := by
  rfl

/-! ## C14: `quit` -/

/-- The pass that reads a line `quit` echoes it and leaves the loop. -/
theorem quit_pass (s : State) (q : List Char) (fuel : Nat) :
    run L (fuel + 1) { s with f := "quit\n".toList ++ q } =
      { s with f := q, out := s.out ++ [Event.stdout ":quit\n".toList] } := by
  have h : iteration L { s with f := "quit\n".toList ++ q } =
      ({ s with f := q, out := s.out ++ [Event.stdout ":quit\n".toList] }, false) := rfl
  rw [run, h]
  rfl

/-- C14: for every script text `P` that ends at a command position and every
text `Q`, the run of `P`, `quit`, `Q` ends in the state in which the run of
`P`, `quit` ends, with `Q` left unread: the trace, the diagnostics, the
rasterizer calls, the image writes, the stack, the colours, the counter, the
screen and the depth map are the same, and the last output of the run is the
echo `:quit`. -/
theorem quit_ends_run (P Q : List Char) (hpos : AtCommandPosition L P) :
    parse_file L (P ++ ("quit\n".toList ++ Q)) =
      { parse_file L (P ++ "quit\n".toList) with f := Q } ∧
    ∃ earlier, (parse_file L (P ++ ("quit\n".toList ++ Q))).out =
      earlier ++ [Event.stdout ":quit\n".toList] := by
  obtain ⟨k, s, hk⟩ := hpos
  have h1 := passes_run k _ _ (hk ("quit\n".toList ++ Q))
    ((P ++ ("quit\n".toList ++ Q)).length + 1) (Nat.lt_succ_self _)
  have h2 := passes_run k _ _ (hk ("quit\n".toList ++ []))
    ((P ++ ("quit\n".toList ++ [])).length + 1) (Nat.lt_succ_self _)
  rw [quit_pass] at h1 h2
  rw [List.append_nil] at h2
  unfold parse_file
  rw [h1, h2]
  exact ⟨rfl, s.out, rfl⟩

/-- C14, witness: `push`, `quit`, and then `pop` and `display`, which are not
run. -/
theorem quit_ends_run_witness :
    parse_file decimal ("push\n".toList ++ ("quit\n".toList ++ "pop\ndisplay\n".toList)) =
      { parse_file decimal ("push\n".toList ++ "quit\n".toList) with f := "pop\ndisplay\n".toList } ∧
    ∃ earlier,
      (parse_file decimal ("push\n".toList ++ ("quit\n".toList ++ "pop\ndisplay\n".toList))).out =
        earlier ++ [Event.stdout ":quit\n".toList] :=
  quit_ends_run "push\n".toList "pop\ndisplay\n".toList
    ⟨1, { init [] with
          stack := [Matrix.ident, Matrix.ident]
          out := [Event.stdout ":push\n".toList] }, fun _ => rfl⟩

/-! ## C15: `background` -/

/-- The result of `read_rgb`: only the input position and the output can
differ from the state before, and the output grows by at most the message. -/
theorem read_rgb_cases (msg : String) (s : State) :
    (∃ f1, read_rgb L msg s = (({ s with f := f1 } : State).printf msg.toList, none)) ∨
    (∃ argline rest1 r g b, fgets 255 s.f = some (argline, rest1) ∧
      sscanf_d3 L (cstr argline) = (3, [r, g, b]) ∧
      read_rgb L msg s = ({ s with f := rest1 }, some (get_color r g b))) := by
  unfold read_rgb
  cases h : fgets 255 s.f with
  | none => exact Or.inl ⟨s.f, rfl⟩
  | some p =>
    obtain ⟨argline, rest1⟩ := p
    simp only
    split
    · rename_i r g b heq
      exact Or.inr ⟨argline, rest1, r, g, b, rfl, heq, rfl⟩
    · exact Or.inl ⟨rest1, rfl⟩

theorem apply_to_stack_ne_nil (stack : List Matrix) (t : Matrix) (h : stack ≠ []) :
    apply_to_stack stack t ≠ [] := by
  cases stack with
  | nil => exact absurd rfl h
  | cons m below => simp [apply_to_stack]

theorem push_ne_nil (stack : List Matrix) (h : stack ≠ []) : push stack ≠ [] := by
  cases stack with
  | nil => exact absurd rfl h
  | cons m below => simp [push]

theorem pop_ne_nil (stack : List Matrix) (h : stack ≠ []) : (pop stack).1 ≠ [] := by
  cases stack with
  | nil => exact absurd rfl h
  | cons m below =>
    cases below with
    | nil => simp [pop]
    | cons m2 below2 => simp [pop]

theorem read_lf_stack (n : Nat) (msg : String) (s : State) :
    (read_lf L n msg s).1.stack = s.stack := by
  rw [read_lf_eq]
  cases h : fgets 255 s.f with
  | none => rfl
  | some p =>
    obtain ⟨argline, rest⟩ := p
    simp only
    split_ifs <;> rfl

theorem draw_cmd_stack (n : Nat) (msg : String) (buf : Matrix) (g : Generator) (r : Raster)
    (s : State) : (draw_cmd L n msg buf g r s).stack = s.stack := by
  have := @read_lf_stack L n msg s
  unfold draw_cmd
  split <;> simp_all [State.rasterize]

theorem transform_cmd_stack_ne_nil (msg : String) (make : List Dbl → Matrix) (s : State)
    (h : s.stack ≠ []) : (transform_cmd L msg make s).stack ≠ [] := by
  have hs := @read_lf_stack L 3 msg s
  unfold transform_cmd
  split
  · rename_i st1 heq
    rw [heq] at hs
    simp only at hs
    rw [hs]
    exact h
  · rename_i st1 args heq
    rw [heq] at hs
    simp only at hs
    exact apply_to_stack_ne_nil _ _ (by rw [hs]; exact h)

theorem rotate_cmd_stack_ne_nil (s : State) (h : s.stack ≠ []) :
    (rotate_cmd L s).stack ≠ [] := by
  unfold rotate_cmd
  cases hf : fgets 255 s.f with
  | none => exact h
  | some p =>
    obtain ⟨argline, rest⟩ := p
    simp only
    split
    · split_ifs
      · exact apply_to_stack_ne_nil _ _ h
      · exact apply_to_stack_ne_nil _ _ h
      · exact apply_to_stack_ne_nil _ _ h
      · exact h
    · exact h

theorem read_rgb_stack (msg : String) (s : State) : (read_rgb L msg s).1.stack = s.stack := by
  rcases read_rgb_cases msg s with ⟨f1, h⟩ | ⟨a, r1, r, g, b, -, -, h⟩
  · rw [h]
    rfl
  · rw [h]

theorem save_cmd_stack (s : State) : (save_cmd s).stack = s.stack := by
  unfold save_cmd
  cases hf : fgets 255 s.f with
  | none => rfl
  | some p =>
    obtain ⟨argline, rest⟩ := p
    simp only
    split_ifs <;> rfl

theorem dispatch_stack_ne_nil (line : List Char) (s : State) (h : s.stack ≠ []) :
    (dispatch L line s).1.stack ≠ [] := by
  have hdraw : ∀ n msg buf g r, (draw_cmd L n msg buf g r s).stack ≠ [] := by
    intro n msg buf g r
    rw [draw_cmd_stack]
    exact h
  unfold dispatch
  refine ite_both (fun r : State × Bool => r.1.stack ≠ []) _ _ _ h ?_
  refine ite_both (fun r : State × Bool => r.1.stack ≠ []) _ _ _ (hdraw _ _ _ _ _) ?_
  refine ite_both (fun r : State × Bool => r.1.stack ≠ []) _ _ _ (hdraw _ _ _ _ _) ?_
  refine ite_both (fun r : State × Bool => r.1.stack ≠ []) _ _ _ (hdraw _ _ _ _ _) ?_
  refine ite_both (fun r : State × Bool => r.1.stack ≠ []) _ _ _ (hdraw _ _ _ _ _) ?_
  refine ite_both (fun r : State × Bool => r.1.stack ≠ []) _ _ _ (hdraw _ _ _ _ _) ?_
  refine ite_both (fun r : State × Bool => r.1.stack ≠ []) _ _ _ (hdraw _ _ _ _ _) ?_
  refine ite_both (fun r : State × Bool => r.1.stack ≠ []) _ _ _ (hdraw _ _ _ _ _) ?_
  refine ite_both (fun r : State × Bool => r.1.stack ≠ []) _ _ _ (hdraw _ _ _ _ _) ?_
  refine ite_both (fun r : State × Bool => r.1.stack ≠ []) _ _ _ (push_ne_nil _ h) ?_
  refine ite_both (fun r : State × Bool => r.1.stack ≠ []) _ _ _ (pop_ne_nil _ h) ?_
  refine ite_both (fun r : State × Bool => r.1.stack ≠ []) _ _ _
    (transform_cmd_stack_ne_nil _ _ s h) ?_
  refine ite_both (fun r : State × Bool => r.1.stack ≠ []) _ _ _
    (transform_cmd_stack_ne_nil _ _ s h) ?_
  refine ite_both (fun r : State × Bool => r.1.stack ≠ []) _ _ _
    (rotate_cmd_stack_ne_nil s h) ?_
  refine ite_both (fun r : State × Bool => r.1.stack ≠ []) _ _ _ ?_ ?_
  · have := @read_rgb_stack L "Error: 'color' requires three integeres\n" s
    simp only
    split <;> simp_all
  refine ite_both (fun r : State × Bool => r.1.stack ≠ []) _ _ _ ?_ ?_
  · have := @read_rgb_stack L "Error: 'background' requires three integeres\n" s
    simp only
    split <;> simp_all
  refine ite_both (fun r : State × Bool => r.1.stack ≠ []) _ _ _ h ?_
  refine ite_both (fun r : State × Bool => r.1.stack ≠ []) _ _ _
    (by show (save_cmd s).stack ≠ []; rw [save_cmd_stack]; exact h) ?_
  exact ite_both (fun r : State × Bool => r.1.stack ≠ []) _ _ _ h h

theorem iteration_stack_ne_nil (st : State) (h : st.stack ≠ []) :
    (iteration L st).1.stack ≠ [] := by
  unfold iteration
  cases hf : fgets 255 st.f with
  | none => exact h
  | some p =>
    obtain ⟨raw, rest⟩ := p
    simp only
    refine ite_both (fun r : State × Bool => r.1.stack ≠ []) _ _ _ h ?_
    refine ite_both (fun r : State × Bool => r.1.stack ≠ []) _ _ _ h ?_
    exact dispatch_stack_ne_nil _ _ h

theorem run_stack_ne_nil (n : Nat) (st : State) (h : st.stack ≠ []) :
    (run L n st).stack ≠ [] := by
  induction n generalizing st with
  | zero => exact h
  | succ n ih =>
    rw [run]
    split_ifs
    · exact ih _ (iteration_stack_ne_nil st h)
    · exact iteration_stack_ne_nil st h

/-- C16: for every run state whose stack has height 1, the command `pop`
leaves the stack at height 1 with its single matrix unchanged and emits the
diagnostic of the rejected pop; and for every script the stack has height at
least 1 after every pass of the loop, however many passes have been made. -/
theorem pop_keeps_base (st : State) (m : Matrix) (rest : List Char) (script : List Char)
    (n : Nat) (hstack : st.stack = [m]) (hcmd : CommandLine st "pop".toList rest) :
    iteration L st =
      ({ st with
         f := rest
         out := st.out ++ [Event.stdout ":pop\n".toList, Event.pop_diagnostic] }, true) ∧
    (iteration L st).1.stack = [m] ∧
    1 ≤ (run L n (init script)).stack.length := by
  have hd : iteration L st =
      ({ st with
         f := rest
         stack := (pop st.stack).1
         out := st.out ++ [Event.stdout ":pop\n".toList] ++ (pop st.stack).2 }, true) := by
    rw [iteration_of_commandLine hcmd]
    rfl
  have h1 : iteration L st =
      ({ st with
         f := rest
         out := st.out ++ [Event.stdout ":pop\n".toList, Event.pop_diagnostic] }, true) := by
    rw [hd, hstack]
    cases st
    simp only [pop] at hstack ⊢
    subst hstack
    simp
  refine ⟨h1, by rw [h1]; exact hstack, ?_⟩
  have h2 := @run_stack_ne_nil L n (init script) (by simp [init, new_stack])
  exact Nat.one_le_iff_ne_zero.mpr (fun h => h2 (List.length_eq_zero.mp h))

/-- C16, witness: `pop` as the first command of a script, on the initial
stack of height 1. -/
theorem pop_keeps_base_witness :
    iteration decimal (init "pop\npop\n".toList) =
      ({ init "pop\npop\n".toList with
         f := "pop\n".toList
         out := [Event.stdout ":pop\n".toList, Event.pop_diagnostic] }, true) ∧
    (iteration decimal (init "pop\npop\n".toList)).1.stack = [Matrix.ident] ∧
    1 ≤ (run decimal 2 (init "push\npop\npop\n".toList)).stack.length :=
  pop_keeps_base (init "pop\npop\n".toList) Matrix.ident "pop\n".toList
    "push\npop\npop\n".toList 2 rfl ⟨"pop\n".toList, rfl, by decide, rfl, rfl⟩

/-! ## C17: failing parameter lines of the state-changing commands -/

/-- C20: for every run state and every text that the loop reads at a command
position (and that holds no carriage return), the line that is tested, echoed
and matched is the C string read less its last character, whether or not that
character is a newline.  So for every script text `P` that ends at a command
position, the script `P` followed by `push` without a newline echoes `:pus`,
prints the unrecognized-command diagnostic for `pus` and leaves the stack as
it was, while `P` followed by `push` and a newline echoes `:push` and pushes. -/
theorem last_character_is_removed (st : State) (raw rest P : List Char)
    (hread : fgets 255 st.f = some (raw, rest)) (hcr : '\r' ∉ cstr raw)
    (hpos : AtCommandPosition L P) :
    iteration L st =
      (if skipped (cstr raw).dropLast then ({ st with f := rest }, true)
       else dispatch L (cstr raw).dropLast
         (({ st with f := rest } : State).printf (':' :: (cstr raw).dropLast ++ ['\n']))) ∧
    ∃ (k : Nat) (s : State), (∀ x, passes L k (init (P ++ x)) = some { s with f := x }) ∧
      parse_file L (P ++ "push".toList) =
        { s with
          f := []
          out := s.out ++ [Event.stdout ":pus\n".toList,
            Event.stdout "Error: unrecognized command 'pus'\n".toList] } ∧
      parse_file L (P ++ "push\n".toList) =
        { s with
          f := []
          stack := push s.stack
          out := s.out ++ [Event.stdout ":push\n".toList] } := by
  constructor
  · unfold iteration
    rw [hread]
    simp only
    rw [if_neg hcr]
    rfl
  · obtain ⟨k, s, hk⟩ := hpos
    refine ⟨k, s, hk, ?_, ?_⟩
    · have h1 := passes_run k _ _ (hk "push".toList) ((P ++ "push".toList).length + 1)
        (Nat.lt_succ_self _)
      have h2 : run L ("push".toList.length + 1) { s with f := "push".toList } =
          { s with
            f := []
            out := s.out ++ [Event.stdout ":pus\n".toList] ++
              [Event.stdout "Error: unrecognized command 'pus'\n".toList] } := rfl
      unfold parse_file
      rw [h1]
      show run L ("push".toList.length + 1) { s with f := "push".toList } = _
      rw [h2]
      simp
    · have h1 := passes_run k _ _ (hk "push\n".toList) ((P ++ "push\n".toList).length + 1)
        (Nat.lt_succ_self _)
      unfold parse_file
      rw [h1]
      rfl

/-- C20, witness: the scripts `pop` / `push` without and with a final newline. -/
theorem last_character_is_removed_witness :
    iteration decimal (init "push".toList) =
      (if skipped (cstr "push".toList).dropLast then
        ({ init "push".toList with f := [] }, true)
       else dispatch decimal (cstr "push".toList).dropLast
         (({ init "push".toList with f := [] } : State).printf
           (':' :: (cstr "push".toList).dropLast ++ ['\n']))) ∧
    ∃ (k : Nat) (s : State),
      (∀ x, passes decimal k (init ("pop\n".toList ++ x)) = some { s with f := x }) ∧
      parse_file decimal ("pop\n".toList ++ "push".toList) =
        { s with
          f := []
          out := s.out ++ [Event.stdout ":pus\n".toList,
            Event.stdout "Error: unrecognized command 'pus'\n".toList] } ∧
      parse_file decimal ("pop\n".toList ++ "push\n".toList) =
        { s with
          f := []
          stack := push s.stack
          out := s.out ++ [Event.stdout ":push\n".toList] } :=
  last_character_is_removed (init "push".toList) "push".toList [] "pop\n".toList rfl
    (by decide)
    ⟨1, { init [] with out := [Event.stdout ":pop\n".toList, Event.pop_diagnostic] },
      fun _ => rfl⟩

end Solids
